import Mathlib

/-!
# Idle-injection cooling devices

A shallow embedding of two thermal cooling drivers,
`drivers/thermal/intel/intel_cpu_idle_cooling.c` (one controller per CPU) and
`drivers/thermal/intel/intel_powerclamp.c` (one package-wide controller).

Conventions of the embedding.

* C `unsigned int` and `unsigned long` values are natural numbers; every
  operation that can leave the range is followed by the reduction modulo
  `2^32` or `2^64` that the C operation performs.  C `int` values are
  integers.
* Globals and per-CPU structures are fields of explicit state records.
* Calls into the idle-injection core are recorded, in order, in a trace.
* What the environment decides (whether `idle_inject_register` hands out a
  device, what the counters read) is an argument of the embedded function.
-/

/-! ## Machine arithmetic -/

/-- Subtraction of two `unsigned long` values (wraps modulo `2^64`). -/
def sub_u64 (a b : Nat) : Nat := (a % 2 ^ 64 + 2 ^ 64 - b % 2 ^ 64) % 2 ^ 64

/-- Subtraction of two `unsigned int` values (wraps modulo `2^32`). -/
def sub_u32 (a b : Nat) : Nat := (a % 2 ^ 32 + 2 ^ 32 - b % 2 ^ 32) % 2 ^ 32

/-- Conversion of an `unsigned int` bit pattern to `int`. -/
def u32_to_int (n : Nat) : Int :=
  if n % 2 ^ 32 < 2 ^ 31 then ((n % 2 ^ 32 : Nat) : Int) else ((n % 2 ^ 32 : Nat) : Int) - 2 ^ 32

/-- Conversion of an `int` to `unsigned int`. -/
def int_to_u32 (i : Int) : Nat := (i % 2 ^ 32).toNat

/-- Conversion of an `int` to `unsigned long`. -/
def int_to_u64 (i : Int) : Nat := (i % 2 ^ 64).toNat

/-! ## The idle-injection core, seen from the drivers -/

/-- Modelled from the spec: the errno constant `EAGAIN` of
`include/uapi/asm-generic/errno-base.h`, which is not among the sources; the
drivers return its negation when the injection device is already claimed. -/
def EAGAIN : Int := 11

/-- A call into the idle-injection core, or into the workqueue, as it is
recorded in the trace.  A device pointer is `none` for `NULL`.
`register r` is a call of `idle_inject_register` that returned `r`. -/
inductive ext_call where
  | register (result : Option Nat)
  | set_duration (dev : Option Nat) (run_duration_us idle_duration_us : Nat)
  | set_latency (dev : Option Nat) (latency_us : Nat)
  | start (dev : Option Nat)
  | stop (dev : Option Nat)
  | unregister (dev : Option Nat)
  | schedule_delayed_work (delay : Nat)
  deriving DecidableEq

/-- Whether a recorded call is a call of `idle_inject_register`. -/
def ext_call.is_register : ext_call → Bool
  | .register _ => true
  | _ => false

/-- Whether a recorded call is a call of `idle_inject_unregister`. -/
def ext_call.is_unregister : ext_call → Bool
  | .unregister _ => true
  | _ => false

/-- Whether a recorded call is a call of `idle_inject_set_duration`. -/
def ext_call.is_set_duration : ext_call → Bool
  | .set_duration _ _ _ => true
  | _ => false

namespace cpuidle

/-! ## intel_cpu_idle_cooling.c -/

/-- The hysteresis margin `IDLE_ERROR_HYSTERISIS`. -/
def IDLE_ERROR_HYSTERISIS : Nat := 5

/-- The function `cpuidle_cooling_runtime(unsigned int idle_duration_us,
unsigned long state)`: the product is an `unsigned int` product, the quotient and the difference are
`unsigned long`, and the result is returned as `unsigned int`. -/
def cpuidle_cooling_runtime (idle_duration_us state : Nat) : Nat :=
  if state = 0 then 0
  else sub_u64 ((idle_duration_us * 100 % 2 ^ 32) / state) idle_duration_us % 2 ^ 32

/-- The module parameters and the kernel constant the per-CPU driver reads.
`TICK_USEC` is declared outside the driver and is a parameter here. -/
structure params where
  idle_duration_us : Int
  idle_latency_us : Int
  TICK_USEC : Nat
  deriving DecidableEq

/-- The defaults `IDLE_DURATION` and `IDLE_LATENCY` (`UINT_MAX` stored in an
`int`), with a tick of 1000 us. -/
def default_params : params :=
  { idle_duration_us := 24000, idle_latency_us := -1, TICK_USEC := 1000 }

/-- The structure `struct cpuidle_cooling`. -/
structure cpuidle_cooling where
  cpu : Int
  ii_dev : Option Nat
  cdev : Option Nat
  state : Nat
  run_duration : Nat
  last_mperf : Nat
  last_tsc : Nat
  comp_active : Bool
  deriving DecidableEq

/-- The zero-initialised per-CPU instance. -/
def cooling_dev_init : cpuidle_cooling :=
  { cpu := 0, ii_dev := none, cdev := none, state := 0, run_duration := 0,
    last_mperf := 0, last_tsc := 0, comp_active := false }

/-- The `busy` percentage `idle_inject_end` computes from the counters:
a `u64` quotient stored in an `int`. -/
def busy_pct (dev : cpuidle_cooling) (tsc mperf : Nat) : Int :=
  u32_to_int ((sub_u64 mperf dev.last_mperf * 100 % 2 ^ 64) / sub_u64 tsc dev.last_tsc)

/-- The `eff_state` value `idle_inject_end` computes, `100 - busy`. -/
def eff_state (dev : cpuidle_cooling) (tsc mperf : Nat) : Int :=
  u32_to_int (int_to_u32 (100 - busy_pct dev tsc mperf))

/-- The function `idle_inject_end(cpu, idle_duration, run_duration)` of the
per-CPU driver, with the values `tsc` and `mperf` read from the counters.  The result is the
new instance and the calls made; `none` when the `u64` division has a zero
divisor. -/
def idle_inject_end (dev : cpuidle_cooling) (idle_duration : Nat) (tsc mperf : Nat) :
    Option (cpuidle_cooling × List ext_call) :=
  let current_state := dev.state
  if dev.last_mperf = 0 then
    some ({ dev with last_mperf := mperf, last_tsc := tsc }, [])
  else if sub_u64 tsc dev.last_tsc = 0 then
    none
  else
    let e := eff_state dev tsc mperf
    if int_to_u64 e < sub_u64 current_state IDLE_ERROR_HYSTERISIS then
      let run_duration := cpuidle_cooling_runtime idle_duration (int_to_u64 e)
      some ({ dev with comp_active := true, last_mperf := mperf, last_tsc := tsc },
        [ext_call.set_duration dev.ii_dev run_duration idle_duration])
    else if dev.comp_active then
      some ({ dev with comp_active := false, last_mperf := mperf, last_tsc := tsc },
        [ext_call.set_duration dev.ii_dev dev.run_duration idle_duration])
    else
      some ({ dev with last_mperf := mperf, last_tsc := tsc }, [])

/-- The function `cpuidle_idle_injection_register`; `reg` is what
`idle_inject_register` returns. -/
def cpuidle_idle_injection_register (p : params) (reg : Option Nat) (dev : cpuidle_cooling) :
    Int × cpuidle_cooling × List ext_call :=
  match reg with
  | none => (-EAGAIN, dev, [ext_call.register none])
  | some h =>
    (0, { dev with ii_dev := some h },
      [ext_call.register (some h),
       ext_call.set_duration (some h) p.TICK_USEC (int_to_u32 p.idle_duration_us),
       ext_call.set_latency (some h) (int_to_u32 p.idle_latency_us)])

/-- The function `cpuidle_idle_injection_unregister`. -/
def cpuidle_idle_injection_unregister (dev : cpuidle_cooling) : List ext_call :=
  [ext_call.unregister dev.ii_dev]

/-- The function `cpuidle_cooling_get_max_state`: the value stored through `state`. -/
def cpuidle_cooling_get_max_state : Nat := 100

/-- The function `cpuidle_cooling_set_cur_state(cdev, state)`: the return
value, the new instance and the calls made.  `reg` is what `idle_inject_register` returns
should it be called. -/
def cpuidle_cooling_set_cur_state (p : params) (reg : Option Nat) (dev : cpuidle_cooling)
    (state : Nat) : Int × cpuidle_cooling × List ext_call :=
  let curr_state := dev.state
  let idle_us := int_to_u32 p.idle_duration_us
  if curr_state = 0 ∧ 0 < state then
    if dev.ii_dev = none then
      let r := cpuidle_idle_injection_register p reg dev
      if r.1 ≠ 0 then
        (r.1, r.2.1, r.2.2)
      else
        let dev1 := { r.2.1 with last_mperf := 0, last_tsc := 0 }
        let runtime_us := cpuidle_cooling_runtime idle_us state
        (0, { dev1 with run_duration := runtime_us, state := state },
          r.2.2 ++ [ext_call.set_duration dev1.ii_dev runtime_us idle_us,
                    ext_call.start dev1.ii_dev])
    else
      let runtime_us := cpuidle_cooling_runtime idle_us state
      (0, { dev with run_duration := runtime_us, state := state },
        [ext_call.set_duration dev.ii_dev runtime_us idle_us, ext_call.start dev.ii_dev])
  else if 0 < curr_state ∧ state ≠ 0 then
    let runtime_us := cpuidle_cooling_runtime idle_us state
    (0, { dev with run_duration := runtime_us, state := state },
      [ext_call.set_duration dev.ii_dev runtime_us idle_us])
  else if 0 < curr_state ∧ state = 0 then
    (0, { dev with ii_dev := none, state := state },
      [ext_call.stop dev.ii_dev] ++ cpuidle_idle_injection_unregister dev)
  else
    (0, { dev with state := state }, [])

/-- One request to the per-CPU cooling device: the requested level and what
`idle_inject_register` would return. -/
structure request where
  level : Nat
  reg : Option Nat
  deriving DecidableEq

/-- The instance and the whole trace after a sequence of
`cpuidle_cooling_set_cur_state` calls. -/
def run_requests (p : params) :
    cpuidle_cooling × List ext_call → List request → cpuidle_cooling × List ext_call
  | st, [] => st
  | st, r :: rs =>
    let out := cpuidle_cooling_set_cur_state p r.reg st.1 r.level
    run_requests p (out.2.1, st.2 ++ out.2.2) rs

/-- An armed controller at level 60 with a period of 24000 us: its stored
run time is 16000 us and its previous sample is 1000 cycles of both
counters. -/
def armed_at_60 : cpuidle_cooling :=
  { cpu := 0, ii_dev := some 7, cdev := none, state := 60, run_duration := 16000,
    last_mperf := 1000, last_tsc := 1000, comp_active := false }

/-- An armed controller at level 3 with the same previous sample. -/
def armed_at_3 : cpuidle_cooling :=
  { cpu := 0, ii_dev := some 7, cdev := none, state := 3, run_duration := 776000,
    last_mperf := 1000, last_tsc := 1000, comp_active := false }

/-- The function `cpuidle_cooling_register(cpu)`: the return value and the
new instance.  `cdev` is the device `thermal_cooling_device_register`
returns, `none` when it returns an error pointer, whose code is `err`. -/
def cpuidle_cooling_register (cdev : Option Nat) (err : Int) (dev : cpuidle_cooling)
    (cpu : Int) : Int × cpuidle_cooling :=
  match cdev with
  | none => (err, dev)
  | some c => (0, { dev with cdev := some c, cpu := cpu })

/-- The function `cpuidle_cooling_unregister(cpu)`: the new instance and the
calls made into the idle-injection core. -/
def cpuidle_cooling_unregister (dev : cpuidle_cooling) : cpuidle_cooling × List ext_call :=
  let calls :=
    if dev.state ≠ 0 then [ext_call.stop dev.ii_dev] ++ cpuidle_idle_injection_unregister dev
    else []
  ({ dev with state := 0 }, calls)

/-- One operation on a per-CPU controller: a `set_cur_state` request with
what `idle_inject_register` would return, the CPU going offline
(`cpuidle_cooling_cpu_offline`), or the CPU coming online
(`cpuidle_cooling_cpu_online`) with what the thermal core returns. -/
inductive operation where
  | set_state (level : Nat) (reg : Option Nat)
  | offline
  | online (cdev : Option Nat) (err : Int)
  deriving DecidableEq

/-- The instance and the calls made by one operation. -/
def apply_operation (p : params) (dev : cpuidle_cooling) :
    operation → cpuidle_cooling × List ext_call
  | .set_state level reg =>
    ((cpuidle_cooling_set_cur_state p reg dev level).2.1,
      (cpuidle_cooling_set_cur_state p reg dev level).2.2)
  | .offline => cpuidle_cooling_unregister dev
  | .online cdev err => ((cpuidle_cooling_register cdev err dev dev.cpu).2, [])

/-- The instance and the whole trace after a sequence of operations. -/
def run_operations (p : params) :
    cpuidle_cooling × List ext_call → List operation → cpuidle_cooling × List ext_call
  | st, [] => st
  | st, o :: os =>
    run_operations p ((apply_operation p st.1 o).1, st.2 ++ (apply_operation p st.1 o).2) os

end cpuidle

namespace powerclamp

/-! ## intel_powerclamp.c -/

/-- The constant `MAX_TARGET_RATIO` (`50U`). -/
def MAX_TARGET_RATIO : Nat := 50

/-- The constant `CONFIDENCE_OK`. -/
def CONFIDENCE_OK : Nat := 3

/-- The structure `struct powerclamp_calibration_data`; the three fields are
`unsigned long`. -/
structure powerclamp_calibration_data where
  confidence : Nat
  steady_comp : Nat
  dynamic_comp : Nat
  deriving DecidableEq

/-- The memory `cal_data[i]` names.  Indices `0 ≤ i < MAX_TARGET_RATIO` are the
entries of the array `cal_data[MAX_TARGET_RATIO]`; the other indices stand
for what lies next to the array, which the C expression `cal_data[i]` reaches
when `i` is out of bounds. -/
abbrev cal_table := Int → powerclamp_calibration_data

/-- The zero-initialised table. -/
def cal_data_init : cal_table := fun _ => { confidence := 0, steady_comp := 0, dynamic_comp := 0 }

/-- Modelled from the spec: the kernel macro `roundup(x, y)` of
`include/linux/math.h`, which is not among the sources; it rounds `x` up to
the next multiple of `y`, `((x + (y - 1)) / y) * y`, here in `unsigned long`
arithmetic. -/
def roundup (x y : Nat) : Nat := ((x % 2 ^ 64 + (y - 1)) % 2 ^ 64 / y) * y % 2 ^ 64

/-- Modelled from the spec: the kernel macro `clamp(val, lo, hi)` of
`include/linux/minmax.h`, which is not among the sources; it bounds `val` to
the range from `lo` to `hi`. -/
def clamp (val lo hi : Nat) : Nat := min (max val lo) hi

/-- The average `(cal_data[a].steady_comp + cal_data[b].steady_comp +
cal_data[c].steady_comp) / 3` of `get_compensation`: an `unsigned long`
expression stored in the `unsigned int` variable `comp`. -/
def window_comp (cal : cal_table) (a b c : Int) : Nat :=
  (((cal a).steady_comp + (cal b).steady_comp + (cal c).steady_comp) % 2 ^ 64 / 3) % 2 ^ 32

/-- The function `get_compensation(int ratio)` over the table `cal`.  The
comparison with `MAX_TARGET_RATIO - 1` and the sum `comp + ratio` are `unsigned int`
operations. -/
def get_compensation (cal : cal_table) (ratio : Int) : Nat :=
  let comp : Nat :=
    if ratio = 1 ∧
        CONFIDENCE_OK ≤ (cal ratio).confidence ∧
        CONFIDENCE_OK ≤ (cal (ratio + 1)).confidence ∧
        CONFIDENCE_OK ≤ (cal (ratio + 2)).confidence then
      window_comp cal ratio (ratio + 1) (ratio + 2)
    else if int_to_u32 ratio = MAX_TARGET_RATIO - 1 ∧
        CONFIDENCE_OK ≤ (cal ratio).confidence ∧
        CONFIDENCE_OK ≤ (cal (ratio - 1)).confidence ∧
        CONFIDENCE_OK ≤ (cal (ratio - 2)).confidence then
      window_comp cal ratio (ratio - 1) (ratio - 2)
    else if CONFIDENCE_OK ≤ (cal ratio).confidence ∧
        CONFIDENCE_OK ≤ (cal (ratio - 1)).confidence ∧
        CONFIDENCE_OK ≤ (cal (ratio + 1)).confidence then
      window_comp cal ratio (ratio - 1) (ratio + 1)
    else 0
  if MAX_TARGET_RATIO ≤ (comp + int_to_u32 ratio) % 2 ^ 32 then
    sub_u32 (sub_u32 MAX_TARGET_RATIO (int_to_u32 ratio)) 1
  else comp

/-- The variable `delta` of `adjust_compensation`: the `unsigned int`
difference `set_target_ratio - current_ratio`, stored in an `int`. -/
def delta_of (set_target_ratio current_ratio : Nat) : Int :=
  u32_to_int (sub_u32 set_target_ratio current_ratio)

/-- The function `adjust_compensation(int target_ratio, unsigned int win)`
over the table `cal`, reading the globals `set_target_ratio` and `current_ratio`.  The
argument `win` is not used by the function. -/
def adjust_compensation (cal : cal_table) (set_target_ratio current_ratio : Nat)
    (target_ratio : Int) : cal_table :=
  let d := cal target_ratio
  if CONFIDENCE_OK ≤ d.confidence then cal
  else
    let delta := delta_of set_target_ratio current_ratio
    if 0 ≤ delta ∧ delta ≤ 1 + Int.tdiv target_ratio 10 then
      let steady_comp :=
        if d.steady_comp ≠ 0 then roundup (int_to_u64 delta + d.steady_comp) 2 / 2
        else int_to_u64 delta
      Function.update cal target_ratio
        { d with steady_comp := steady_comp, confidence := (d.confidence + 1) % 2 ^ 64 }
    else cal

/-- One call of `adjust_compensation`: the level it is called for and the
values of the two globals it reads. -/
structure sample where
  target_ratio : Int
  set_target_ratio : Nat
  current_ratio : Nat
  deriving DecidableEq

/-- The table after a sequence of `adjust_compensation` calls. -/
def adjust_all : cal_table → List sample → cal_table
  | cal, [] => cal
  | cal, x :: xs =>
    adjust_all (adjust_compensation cal x.set_target_ratio x.current_ratio x.target_ratio) xs

/-- The structure `struct powerclamp_data`. -/
structure powerclamp_data where
  cpu : Nat
  count : Nat
  guard : Nat
  window_size_now : Nat
  target_ratio : Nat
  clamping : Bool
  deriving DecidableEq

/-- The file-scope variables of the driver, the two function-local statics
of `powerclamp_adjust_controls`, and the trace of calls made so far. -/
structure globals where
  set_target_ratio : Nat
  current_ratio : Nat
  should_skip : Bool
  control_cpu : Nat
  pdata : powerclamp_data
  def_idle_duration : Nat
  pkg_cstate_ratio_cur : Nat
  window_size : Nat
  cal_data : cal_table
  ii_dev : Option Nat
  msr_last : Nat
  tsc_last : Nat
  calls : List ext_call

/-- The variables as the module leaves them after `powerclamp_init`, for a
given default idle duration. -/
def globals_init (def_idle_duration : Nat) : globals :=
  { set_target_ratio := 0, current_ratio := 0, should_skip := false, control_cpu := 0,
    pdata := { cpu := 0, count := 0, guard := 0, window_size_now := 0, target_ratio := 0,
               clamping := false },
    def_idle_duration := def_idle_duration, pkg_cstate_ratio_cur := 0, window_size := 2,
    cal_data := cal_data_init, ii_dev := none, msr_last := 0, tsc_last := 0, calls := [] }

/-- What the environment answers during one call into the driver: whether
CPU 0 is online, the CPU the caller runs on, what `idle_inject_register`
returns, and the kernel constant `TICK_USEC`. -/
structure environment where
  cpu0_online : Bool
  this_cpu : Nat
  reg : Option Nat
  TICK_USEC : Nat
  deriving DecidableEq

/-- The variable `compensated_ratio` of `get_run_time` for a target and a
table: `target_ratio + get_compensation(target_ratio)` in `unsigned int`
arithmetic, replaced by 1 when it is 0. -/
def compensated_ratio (cal : cal_table) (target_ratio : Nat) : Nat :=
  let c := (target_ratio + get_compensation cal (u32_to_int target_ratio)) % 2 ^ 32
  if c ≤ 0 then 1 else c

/-- The function `get_run_time()`: the returned run time and the updated variables. -/
def get_run_time (s : globals) : Nat × globals :=
  let target_ratio := s.set_target_ratio
  let pd : powerclamp_data :=
    { s.pdata with
      target_ratio := target_ratio
      guard := (1 + target_ratio / 20) % 2 ^ 32
      window_size_now := s.window_size
      count := (s.pdata.count + 1) % 2 ^ 32 }
  let cr := compensated_ratio s.cal_data target_ratio
  let runtime := sub_u32 ((s.def_idle_duration * 100 % 2 ^ 32) / cr) s.def_idle_duration
  (runtime, { s with pdata := pd })

/-- The function `trigger_idle_injection()`. -/
def trigger_idle_injection (s : globals) : globals :=
  let r := get_run_time s
  let s1 := r.2
  { s1 with
    pdata := { s1.pdata with clamping := true }
    calls := s1.calls ++ [ext_call.set_duration s1.ii_dev r.1 s1.def_idle_duration,
                          ext_call.start s1.ii_dev] }

/-- The function `powerclamp_idle_injection_register()`: the return value
and the updated variables. -/
def powerclamp_idle_injection_register (e : environment) (s : globals) : Int × globals :=
  match e.reg with
  | none => (-EAGAIN, { s with ii_dev := none, calls := s.calls ++ [ext_call.register none] })
  | some h =>
    (0, { s with
          ii_dev := some h
          calls := s.calls ++ [ext_call.register (some h),
                               ext_call.set_duration (some h) e.TICK_USEC s.def_idle_duration,
                               ext_call.set_latency (some h) (2 ^ 32 - 1)] })

/-- The function `remove_idle_injection()`. -/
def remove_idle_injection (s : globals) : globals :=
  if s.pdata.clamping = false then s
  else
    { s with
      pdata := { s.pdata with clamping := false }
      calls := s.calls ++ [ext_call.stop s.ii_dev] }

/-- The function `start_power_clamp()`: the return value and the updated variables. -/
def start_power_clamp (e : environment) (s : globals) : Int × globals :=
  let s1 := { s with control_cpu := if e.cpu0_online then 0 else e.this_cpu }
  let r := powerclamp_idle_injection_register e s1
  if r.1 = 0 then
    let s2 := trigger_idle_injection r.2
    (r.1, { s2 with calls := s2.calls ++ [ext_call.schedule_delayed_work 0] })
  else r

/-- The function `end_power_clamp()`. -/
def end_power_clamp (s : globals) : globals :=
  if s.pdata.clamping then
    let s1 := remove_idle_injection s
    { s1 with calls := s1.calls ++ [ext_call.unregister s1.ii_dev] }
  else s

/-- The function `powerclamp_get_max_state`: the value stored through `state`. -/
def powerclamp_get_max_state : Nat := MAX_TARGET_RATIO

/-- The function `powerclamp_set_cur_state(cdev, new_target_ratio)`: the
return value and the updated variables. -/
def powerclamp_set_cur_state (e : environment) (s : globals) (new_target_ratio : Nat) :
    Int × globals :=
  let new_target_ratio := clamp new_target_ratio 0 ( MAX_TARGET_RATIO - 1)
  if s.set_target_ratio = 0 ∧ 0 < new_target_ratio then
    start_power_clamp e { s with set_target_ratio := new_target_ratio % 2 ^ 32 }
  else if 0 < s.set_target_ratio ∧ new_target_ratio = 0 then
    (0, { end_power_clamp s with set_target_ratio := 0 })
  else
    (0, { s with set_target_ratio := new_target_ratio % 2 ^ 32 })

/-- Modelled from the spec: the type `struct cpumask` of
`include/linux/cpumask.h`, which is not among the sources; a set of CPUs
among `nr_cpu_ids` possible ones, bit `i` being `bits i`. -/
structure cpumask where
  nr_cpu_ids : Nat
  bits : Nat → Bool

/-- The mask whose set bits are the members of a list. -/
def cpumask_of_list (nr_cpu_ids : Nat) (cpus : List Nat) : cpumask :=
  { nr_cpu_ids := nr_cpu_ids, bits := fun i => decide (i ∈ cpus) }

/-- Whether CPU `i` is in the mask (`cpumask_test_cpu`). -/
def cpumask.test (m : cpumask) (i : Nat) : Bool := decide (i < m.nr_cpu_ids) && m.bits i

/-- Modelled from the spec: the bit search `find_next_bit` of
`include/linux/find.h`, which is not among the sources and on which the two
mask helpers below rest; the lowest set bit of the mask at or above `start`,
or `nr_cpu_ids` when there is none. -/
def find_next_bit (m : cpumask) (start : Nat) : Nat :=
  ((List.range m.nr_cpu_ids).find? (fun i => decide (start ≤ i) && m.bits i)).getD m.nr_cpu_ids

/-- Modelled from the spec: `cpumask_first` of `include/linux/cpumask.h`,
which is not among the sources; the first CPU of the mask, that is its
lowest-numbered member, and `nr_cpu_ids` for an empty mask. -/
def cpumask_first (m : cpumask) : Nat := find_next_bit m 0

/-- Modelled from the spec: `cpumask_next` of `include/linux/cpumask.h`,
which is not among the sources; the lowest-numbered member of the mask
above `n`, and `nr_cpu_ids` when there is none. -/
def cpumask_next (n : Nat) (m : cpumask) : Nat := find_next_bit m (n + 1)

/-- The function `powerclamp_cpu_predown(cpu)`: the new value of
`control_cpu`, for the mask `cpu_online_mask` at the time of the call. -/
def powerclamp_cpu_predown (cpu_online_mask : cpumask) (control_cpu cpu : Nat) : Nat :=
  if cpu ≠ control_cpu then control_cpu
  else
    let c := cpumask_first cpu_online_mask
    if c = cpu then cpumask_next cpu cpu_online_mask else c

/-- A table in which levels 0, 1 and 2 have reached `CONFIDENCE_OK` with a
steady compensation of 3, and no other level has been calibrated.  It serves
as an example of arbitrary table contents. -/
def cal_low_levels : cal_table :=
  fun i => if 0 ≤ i ∧ i ≤ 2 then { confidence := 3, steady_comp := 3, dynamic_comp := 0 }
    else { confidence := 0, steady_comp := 0, dynamic_comp := 0 }

/-- A table in which every level has reached `CONFIDENCE_OK` and holds the
steady compensation `2^32`.  It serves as an example of arbitrary table
contents. -/
def cal_wide : cal_table :=
  fun _ => { confidence := 3, steady_comp := 2 ^ 32, dynamic_comp := 0 }

/-- The three levels whose entries decide the compensation of level `L`, in
the words of the specification: the level and its two neighbours, and for
the edge levels 1 and `MAX_TARGET_RATIO - 1` the two nearest levels on the
available side. -/
def claimed_window (L : Nat) : Int × Int × Int :=
  if L = 1 then (1, 2, 3)
  else if L = MAX_TARGET_RATIO - 1 then
    ((( MAX_TARGET_RATIO - 1 : Nat) : Int), (( MAX_TARGET_RATIO - 2 : Nat) : Int),
      (( MAX_TARGET_RATIO - 3 : Nat) : Int))
  else ((L : Int) - 1, (L : Int), (L : Int) + 1)

/-- The sum of the steady compensations over the window of level `L`. -/
def claimed_window_sum (cal : cal_table) (L : Nat) : Nat :=
  (cal (claimed_window L).1).steady_comp + (cal (claimed_window L).2.1).steady_comp +
    (cal (claimed_window L).2.2).steady_comp

/-- Whether the three entries of the window of level `L` have all reached
`CONFIDENCE_OK`. -/
def claimed_window_trusted (cal : cal_table) (L : Nat) : Prop :=
  CONFIDENCE_OK ≤ (cal (claimed_window L).1).confidence ∧
  CONFIDENCE_OK ≤ (cal (claimed_window L).2.1).confidence ∧
  CONFIDENCE_OK ≤ (cal (claimed_window L).2.2).confidence

instance (cal : cal_table) (L : Nat) : Decidable (claimed_window_trusted cal L) := by
  unfold claimed_window_trusted; infer_instance

/-- Modelled from the spec: the errno constant `EINVAL` of
`include/uapi/asm-generic/errno-base.h`, which is not among the sources; the
tunables return its negation for a value outside the accepted bounds. -/
def EINVAL : Int := 22

/-- The function `duration_set(arg, kp)`: the return value and the updated
variables.  `kstrtoul_ret` is what `kstrtoul` returns for `arg` and
`new_duration` the `unsigned long` it parses. -/
def duration_set (s : globals) (kstrtoul_ret : Int) (new_duration : Nat) : Int × globals :=
  if kstrtoul_ret ≠ 0 then (kstrtoul_ret, s)
  else
    let ret : Int := if 25 < new_duration ∨ new_duration < 6 then -EINVAL else 0
    (ret, { s with def_idle_duration := clamp new_duration 6 25 % 2 ^ 32 })

/-- The function `window_size_set(arg, kp)`: the return value and the updated
variables, with the result of `kstrtoul` as for `duration_set`. -/
def window_size_set (s : globals) (kstrtoul_ret : Int) (new_window_size : Nat) :
    Int × globals :=
  if kstrtoul_ret ≠ 0 then (kstrtoul_ret, s)
  else
    let ret : Int := if 10 < new_window_size ∨ new_window_size < 2 then -EINVAL else 0
    (ret, { s with window_size := clamp new_window_size 2 10 % 2 ^ 32 })

/-- Modelled from the spec: the kernel macro `do_div(n, base)` of
`include/asm-generic/div64.h`, which is not among the sources; the
specification gives the sampled ratio as the quotient
`100 * (residency_now - residency_prev) / (reference_now - reference_prev)`,
so the macro leaves in `n` the quotient of `n` by `base`. -/
def do_div (n base : Nat) : Nat := n / base

/-- The function `powerclamp_adjust_controls(target_ratio, guard, win)`: the
return value and the updated variables.  `msr_now` is what
`pkg_state_counter()` returns and `tsc_now` what `rdtsc()` returns.  The
argument `win` is only handed on to `adjust_compensation`, which does not
use it. -/
def powerclamp_adjust_controls (s : globals) (target_ratio guard : Nat)
    (msr_now tsc_now : Nat) : Bool × globals :=
  let current_ratio :=
    if s.msr_last = 0 ∨ s.tsc_last = 0 then 1
    else if sub_u64 tsc_now s.tsc_last ≠ 0 then
      do_div (100 * sub_u64 msr_now s.msr_last % 2 ^ 64) (sub_u64 tsc_now s.tsc_last) % 2 ^ 32
    else s.current_ratio
  let cal := adjust_compensation s.cal_data s.set_target_ratio current_ratio
    (u32_to_int target_ratio)
  (decide ((s.set_target_ratio + guard) % 2 ^ 32 ≤ current_ratio),
    { s with
      current_ratio := current_ratio
      msr_last := msr_now
      tsc_last := tsc_now
      cal_data := cal })

/-- Whether `powerclamp_adjust_controls` divides in a call: it does unless
a previous snapshot is zero or the reference counter has not advanced. -/
def adjust_controls_divides (s : globals) (tsc_now : Nat) : Bool :=
  decide (¬ (s.msr_last = 0 ∨ s.tsc_last = 0) ∧ sub_u64 tsc_now s.tsc_last ≠ 0)

/-- The indices read by a chain of tests
`cal_data[i].confidence >= CONFIDENCE_OK && ...` over the listed indices:
the `&&` stops at the first entry below `CONFIDENCE_OK`. -/
def confidence_chain_reads (cal : cal_table) : List Int → List Int
  | [] => []
  | i :: rest =>
    i :: (if CONFIDENCE_OK ≤ (cal i).confidence then confidence_chain_reads cal rest else [])

/-- The function `get_compensation(int ratio)` once more, returning with its
value the indices `i` of the reads `cal_data[i]` it makes, in order: the
confidence tests of each branch reached, up to the first that fails, and
the three `steady_comp` reads of the branch taken. -/
def get_compensation_traced (cal : cal_table) (ratio : Int) : Nat × List Int :=
  let limit (comp : Nat) : Nat :=
    if MAX_TARGET_RATIO ≤ (comp + int_to_u32 ratio) % 2 ^ 32 then
      sub_u32 (sub_u32 MAX_TARGET_RATIO (int_to_u32 ratio)) 1
    else comp
  let r1 := if ratio = 1 then confidence_chain_reads cal [ratio, ratio + 1, ratio + 2] else []
  if ratio = 1 ∧
      CONFIDENCE_OK ≤ (cal ratio).confidence ∧
      CONFIDENCE_OK ≤ (cal (ratio + 1)).confidence ∧
      CONFIDENCE_OK ≤ (cal (ratio + 2)).confidence then
    (limit (window_comp cal ratio (ratio + 1) (ratio + 2)),
      r1 ++ [ratio, ratio + 1, ratio + 2])
  else
    let r2 :=
      if int_to_u32 ratio = MAX_TARGET_RATIO - 1 then
        confidence_chain_reads cal [ratio, ratio - 1, ratio - 2]
      else []
    if int_to_u32 ratio = MAX_TARGET_RATIO - 1 ∧
        CONFIDENCE_OK ≤ (cal ratio).confidence ∧
        CONFIDENCE_OK ≤ (cal (ratio - 1)).confidence ∧
        CONFIDENCE_OK ≤ (cal (ratio - 2)).confidence then
      (limit (window_comp cal ratio (ratio - 1) (ratio - 2)),
        r1 ++ r2 ++ [ratio, ratio - 1, ratio - 2])
    else
      let r3 := confidence_chain_reads cal [ratio, ratio - 1, ratio + 1]
      if CONFIDENCE_OK ≤ (cal ratio).confidence ∧
          CONFIDENCE_OK ≤ (cal (ratio - 1)).confidence ∧
          CONFIDENCE_OK ≤ (cal (ratio + 1)).confidence then
        (limit (window_comp cal ratio (ratio - 1) (ratio + 1)),
          r1 ++ r2 ++ r3 ++ [ratio, ratio - 1, ratio + 1])
      else (limit 0, r1 ++ r2 ++ r3)

/-- A table in which levels 48 and 49 have reached `CONFIDENCE_OK` with a
steady compensation of 1, and no other entry, inside the array or next to
it, is above zero. -/
def cal_high_levels : cal_table :=
  fun i => if 48 ≤ i ∧ i ≤ 49 then { confidence := 3, steady_comp := 1, dynamic_comp := 0 }
    else { confidence := 0, steady_comp := 0, dynamic_comp := 0 }

/-- An environment in which CPU 0 is online and `idle_inject_register`
hands out device 7, with a tick of 1000 us. -/
def clamp_env : environment :=
  { cpu0_online := true, this_cpu := 0, reg := some 7, TICK_USEC := 1000 }

/-- The variables after the first start of clamping since module load, at
level 10 with a period of 6000 us. -/
def first_start : globals := (powerclamp_set_cur_state clamp_env (globals_init 6000) 10).2

/-- The variables after the first start and one call of
`powerclamp_adjust_controls`, as `idle_inject_begin` makes it, that read
1000 from the residency counter and 10000 from the reference counter. -/
def first_sampled : globals :=
  (powerclamp_adjust_controls first_start first_start.pdata.target_ratio
    first_start.pdata.guard 1000 10000).2

/-- The variables after clamping was then stopped (level 0) and started
again at level 10. -/
def restarted : globals :=
  (powerclamp_set_cur_state clamp_env (powerclamp_set_cur_state clamp_env first_sampled 0).2 10).2

/-- Whether a sequence of `adjust_compensation` calls is one the driver
makes: each call is for a level from 1 to `MAX_TARGET_RATIO - 1`, the levels
`powerclamp_set_cur_state` stores while clamping is on. -/
def driver_samples (xs : List sample) : Prop :=
  ∀ x ∈ xs, 1 ≤ x.target_ratio ∧ x.target_ratio < (( MAX_TARGET_RATIO : Nat) : Int)

instance (xs : List sample) : Decidable (driver_samples xs) := by
  unfold driver_samples; infer_instance

/-- Three clean samples at each of the levels 9 and 10, with deltas 1 and 2. -/
def samples_9_10 : List sample :=
  [{ target_ratio := 9, set_target_ratio := 9, current_ratio := 8 },
   { target_ratio := 9, set_target_ratio := 9, current_ratio := 8 },
   { target_ratio := 9, set_target_ratio := 9, current_ratio := 8 },
   { target_ratio := 10, set_target_ratio := 10, current_ratio := 8 },
   { target_ratio := 10, set_target_ratio := 10, current_ratio := 8 },
   { target_ratio := 10, set_target_ratio := 10, current_ratio := 8 }]

/-- Three clean samples at each of the levels 9, 10 and 11, with deltas 1,
2 and 2. -/
def samples_9_10_11 : List sample :=
  samples_9_10 ++
  [{ target_ratio := 11, set_target_ratio := 11, current_ratio := 9 },
   { target_ratio := 11, set_target_ratio := 11, current_ratio := 9 },
   { target_ratio := 11, set_target_ratio := 11, current_ratio := 9 }]

/-- The function `idle_inject_begin(cpu, idle_duration, run_duration)` of the
package-wide driver: the return value and the updated variables, with the
counter values the call of `powerclamp_adjust_controls` reads.  The
remainder by `window_size_now` is taken on the control CPU only; on a run of
the driver that value is at least 2 whenever a callback is made. -/
def idle_inject_begin (s : globals) (cpu idle_duration run_duration : Nat)
    (msr_now tsc_now : Nat) : Int × globals :=
  let s1 :=
    if cpu = s.control_cpu ∧ s.pdata.count % s.pdata.window_size_now = 0 then
      let r := powerclamp_adjust_controls s s.pdata.target_ratio s.pdata.guard msr_now tsc_now
      { r.2 with should_skip := r.1 }
    else s
  if s1.should_skip then (-EAGAIN, s1)
  else
    (0, { s1 with
          calls := s1.calls ++ [ext_call.set_duration s1.ii_dev run_duration idle_duration] })

/-- The function `idle_inject_end(cpu, idle_duration, run_duration)` of the
package-wide driver. -/
def idle_inject_end (s : globals) (idle_duration : Nat) : globals :=
  let r := get_run_time s
  { r.2 with calls := r.2.calls ++ [ext_call.set_duration r.2.ii_dev r.1 idle_duration] }

/-- The function `powerclamp_cpu_online(cpu)`. -/
def powerclamp_cpu_online (s : globals) (cpu : Nat) : globals :=
  if s.pdata.clamping = false then s
  else if cpu = 0 then { s with control_cpu := 0 }
  else s

/-- One entry into the package-wide driver: a `set_cur_state` request, a
begin or end callback of the idle-injection core, an update of a tunable,
or a CPU hotplug callback. -/
inductive driver_event where
  | set_cur_state (e : environment) (level : Nat)
  | period_begin (cpu idle_duration run_duration msr_now tsc_now : Nat)
  | period_end (idle_duration : Nat)
  | set_duration (kstrtoul_ret : Int) (value : Nat)
  | set_window_size (kstrtoul_ret : Int) (value : Nat)
  | cpu_online (cpu : Nat)
  | cpu_predown (cpu_online_mask : cpumask) (cpu : Nat)

/-- The variables after one entry into the driver.  The idle-injection core
calls back only between `idle_inject_start` and `idle_inject_stop`, that is
while `clamping` is set; a callback event at another time changes nothing. -/
def driver_step (s : globals) : driver_event → globals
  | .set_cur_state e level => (powerclamp_set_cur_state e s level).2
  | .period_begin cpu idle_duration run_duration msr_now tsc_now =>
    if s.pdata.clamping then (idle_inject_begin s cpu idle_duration run_duration msr_now tsc_now).2
    else s
  | .period_end idle_duration => if s.pdata.clamping then idle_inject_end s idle_duration else s
  | .set_duration r v => (duration_set s r v).2
  | .set_window_size r v => (window_size_set s r v).2
  | .cpu_online cpu => powerclamp_cpu_online s cpu
  | .cpu_predown m cpu => { s with control_cpu := powerclamp_cpu_predown m s.control_cpu cpu }

/-- The variables after a sequence of entries into the driver. -/
def run_driver : globals → List driver_event → globals
  | s, [] => s
  | s, ev :: evs => run_driver (driver_step s ev) evs

/-- What holds of the variables on every run of the driver: the table is
reached from the zero-initialised one by calls the driver makes, the window
size is at least 2, and while clamping is on the stored level and the
level and window size latched by `get_run_time` are in range. -/
def driver_invariant (s : globals) : Prop :=
  (∃ xs : List sample, driver_samples xs ∧ s.cal_data = adjust_all cal_data_init xs) ∧
  2 ≤ s.window_size ∧
  (s.pdata.clamping = true →
    (1 ≤ s.set_target_ratio ∧ s.set_target_ratio < MAX_TARGET_RATIO) ∧
    (1 ≤ s.pdata.target_ratio ∧ s.pdata.target_ratio < MAX_TARGET_RATIO) ∧
    2 ≤ s.pdata.window_size_now)

end powerclamp

/-! ## Theorems -/

section Runtime

open cpuidle

theorem runtime_no_wrap (P L : Nat) (hP : 100 * P < 2 ^ 32) (h0 : 0 < L) (h100 : L ≤ 100) :
    P ≤ (P * 100 % 2 ^ 32) / L ∧ cpuidle_cooling_runtime P L = 100 * P / L - P := by
  have hmod : P * 100 % 2 ^ 32 = 100 * P := by
    rw [Nat.mul_comm]; exact Nat.mod_eq_of_lt hP
  have hle : P ≤ 100 * P / L := by
    rw [Nat.le_div_iff_mul_le h0]
    calc P * L ≤ P * 100 := Nat.mul_le_mul_left P h100
      _ = 100 * P := Nat.mul_comm _ _
  have hq : 100 * P / L < 2 ^ 32 := lt_of_le_of_lt (Nat.div_le_self _ _) hP
  refine ⟨by rw [hmod]; exact hle, ?_⟩
  unfold cpuidle_cooling_runtime sub_u64
  rw [if_neg (by omega), hmod]
  omega

/-- C1: for `100 * P < 2^32` and levels `0 < L1 ≤ L2 < 100`, the unsigned
subtraction in `cpuidle_cooling_runtime` does not wrap at either level, the
result is exactly `⌊100 * P / L⌋ - P`, and the result does not increase with
the level. -/
theorem cpuidle_cooling_runtime_exact_antitone (P L1 L2 : Nat)
    (hP : 100 * P < 2 ^ 32) (h1 : 0 < L1) (h12 : L1 ≤ L2) (h2 : L2 < 100) :
    (P ≤ (P * 100 % 2 ^ 32) / L1 ∧ P ≤ (P * 100 % 2 ^ 32) / L2) ∧
    (P ≤ 100 * P / L1 ∧ cpuidle_cooling_runtime P L1 = 100 * P / L1 - P) ∧
    (P ≤ 100 * P / L2 ∧ cpuidle_cooling_runtime P L2 = 100 * P / L2 - P) ∧
    cpuidle_cooling_runtime P L2 ≤ cpuidle_cooling_runtime P L1 := by
  have a1 := runtime_no_wrap P L1 hP h1 (by omega)
  have a2 := runtime_no_wrap P L2 hP (by omega) (by omega)
  have hmod : P * 100 % 2 ^ 32 = 100 * P := by
    rw [Nat.mul_comm]; exact Nat.mod_eq_of_lt hP
  have hmono : 100 * P / L2 ≤ 100 * P / L1 := Nat.div_le_div_left h12 h1
  refine ⟨⟨a1.1, a2.1⟩, ⟨?_, a1.2⟩, ⟨?_, a2.2⟩, ?_⟩
  · have := a1.1; rwa [hmod] at this
  · have := a2.1; rwa [hmod] at this
  · rw [a1.2, a2.2]; omega

/-- At a period of 24000 us, levels 25 and 60 give run times 72000 and 16000. -/
theorem cpuidle_cooling_runtime_exact_antitone_witness :
    cpuidle_cooling_runtime 24000 25 = 72000 ∧ cpuidle_cooling_runtime 24000 60 = 16000 ∧
    cpuidle_cooling_runtime 24000 60 ≤ cpuidle_cooling_runtime 24000 25 := by
  have h := cpuidle_cooling_runtime_exact_antitone 24000 25 60 (by norm_num) (by norm_num)
    (by norm_num) (by norm_num)
  refine ⟨?_, ?_, h.2.2.2⟩
  · rw [h.2.1.2]
  · rw [h.2.2.1.2]

end Runtime

section Arithmetic

theorem u32_to_int_of_lt (n : Nat) (h : n < 2 ^ 31) : u32_to_int n = (n : Int) := by
  unfold u32_to_int
  have h1 : n % 2 ^ 32 = n := Nat.mod_eq_of_lt (by omega)
  rw [h1, if_pos h]

theorem int_to_u32_natCast (n : Nat) (h : n < 2 ^ 32) : int_to_u32 (n : Int) = n := by
  unfold int_to_u32
  omega

theorem int_to_u64_of_nonneg (i : Int) (h0 : 0 ≤ i) (h : i < 2 ^ 64) :
    int_to_u64 i = i.toNat := by
  unfold int_to_u64
  omega

end Arithmetic

section Compensation

open powerclamp

/-- A remark on a table the driver does not hold, since level 0 is never
calibrated: were levels 0, 1 and 2 trusted and level 3 not, the lookup for
level 1 would fall through to the window of levels 0, 1, 2 and return 3.
The result for level 1 on the driver's tables rests on entry 0 staying
untrusted. -/
theorem get_compensation_level_one_falls_through :
    (cal_low_levels 3).confidence < CONFIDENCE_OK ∧
    CONFIDENCE_OK ≤ (cal_low_levels 1).confidence ∧
    CONFIDENCE_OK ≤ (cal_low_levels 2).confidence ∧
    get_compensation cal_low_levels 1 = 3 := by
  decide

/-- A remark on a table the driver does not hold, since it keeps every
steady compensation small: with the steady compensation `2^32` in the
window of level 10 the average `2^32` would be held as 0 by the
`unsigned int` variable `comp`.  This is why the lemma
`get_compensation_trusted_window` below asks for the average to fit. -/
theorem get_compensation_average_truncated :
    claimed_window_trusted cal_wide 10 ∧
    get_compensation cal_wide 10 = 0 ∧
    min (claimed_window_sum cal_wide 10 / 3) ( MAX_TARGET_RATIO - 1 - 10) = 39 := by
  decide

theorem limit_comp (c L : Nat) (hL : L < 50) (h : c + L < 2 ^ 32) :
    (if 50 ≤ (c + L) % 2 ^ 32 then sub_u32 (sub_u32 50 L) 1 else c) = min c (50 - 1 - L) := by
  unfold sub_u32
  split_ifs <;> omega

theorem window_comp_exact (cal : cal_table) (a b c : Int)
    (h : ((cal a).steady_comp + (cal b).steady_comp + (cal c).steady_comp) / 3 < 2 ^ 32) :
    window_comp cal a b c =
      ((cal a).steady_comp + (cal b).steady_comp + (cal c).steady_comp) / 3 := by
  unfold window_comp
  have hs : (cal a).steady_comp + (cal b).steady_comp + (cal c).steady_comp < 2 ^ 64 := by
    omega
  rw [Nat.mod_eq_of_lt hs, Nat.mod_eq_of_lt h]

theorem int_to_u32_one : int_to_u32 1 = 1 := by decide

theorem int_to_u32_49 : int_to_u32 49 = 49 := by decide

/-- The value `get_compensation` returns at level 1 when the window 1, 2, 3
is trusted. -/
theorem get_compensation_low_edge (cal : cal_table)
    (h : CONFIDENCE_OK ≤ (cal 1).confidence ∧ CONFIDENCE_OK ≤ (cal 2).confidence ∧
      CONFIDENCE_OK ≤ (cal 3).confidence) :
    get_compensation cal 1 =
      if 50 ≤ (window_comp cal 1 2 3 + 1) % 2 ^ 32 then sub_u32 (sub_u32 50 1) 1
      else window_comp cal 1 2 3 := by
  unfold get_compensation
  simp only [Int.reduceAdd, Int.reduceSub, int_to_u32_one, h.1, h.2.1, h.2.2, and_self,
    if_true, MAX_TARGET_RATIO]

theorem get_compensation_high_edge (cal : cal_table)
    (h : CONFIDENCE_OK ≤ (cal 49).confidence ∧ CONFIDENCE_OK ≤ (cal 48).confidence ∧
      CONFIDENCE_OK ≤ (cal 47).confidence) :
    get_compensation cal 49 =
      if 50 ≤ (window_comp cal 49 48 47 + 49) % 2 ^ 32 then sub_u32 (sub_u32 50 49) 1
      else window_comp cal 49 48 47 := by
  unfold get_compensation
  simp only [Int.reduceAdd, Int.reduceSub, int_to_u32_49, h.1, h.2.1, h.2.2, and_self,
    if_true, MAX_TARGET_RATIO, Int.reduceEq, false_and, if_false, Nat.reduceSub]

theorem get_compensation_interior (cal : cal_table) (L : Nat) (h2 : 2 ≤ L) (h48 : L ≤ 48)
    (h : CONFIDENCE_OK ≤ (cal ((L : Int) - 1)).confidence ∧
      CONFIDENCE_OK ≤ (cal (L : Int)).confidence ∧
      CONFIDENCE_OK ≤ (cal ((L : Int) + 1)).confidence) :
    get_compensation cal (L : Int) =
      if 50 ≤ (window_comp cal (L : Int) ((L : Int) - 1) ((L : Int) + 1) + L) % 2 ^ 32 then
        sub_u32 (sub_u32 50 L) 1
      else window_comp cal (L : Int) ((L : Int) - 1) ((L : Int) + 1) := by
  have hu : int_to_u32 (L : Int) = L := int_to_u32_natCast L (by omega)
  have n1 : ¬ ((L : Int) = 1) := by omega
  have n49 : ¬ (L = 49) := by omega
  unfold get_compensation
  simp only [hu, n1, n49, h.1, h.2.1, h.2.2, and_self, if_true, MAX_TARGET_RATIO, false_and,
    if_false, Nat.reduceSub]

/-- For any table: when the three entries of the window of level `L` are
trusted and the average of their steady compensations plus `L` is below
`2^32`, `get_compensation L` is the smaller of that average and
`MAX_TARGET_RATIO - 1 - L`. -/
theorem get_compensation_trusted_window (cal : cal_table) (L : Nat)
    (h1 : 1 ≤ L) (h2 : L < MAX_TARGET_RATIO)
    (ht : claimed_window_trusted cal L)
    (hfit : claimed_window_sum cal L / 3 + L < 2 ^ 32) :
    get_compensation cal (L : Int) =
      min (claimed_window_sum cal L / 3) ( MAX_TARGET_RATIO - 1 - L) := by
  have h50 : L < 50 := h2
  unfold claimed_window_trusted at ht
  unfold claimed_window_sum at hfit ⊢
  unfold claimed_window at ht hfit ⊢
  by_cases hL1 : L = 1
  · subst hL1
    simp only [if_true] at ht hfit ⊢
    have e := window_comp_exact cal 1 2 3 (by omega)
    have g := get_compensation_low_edge cal ht
    rw [e] at g
    have l := limit_comp (((cal 1).steady_comp + (cal 2).steady_comp +
      (cal 3).steady_comp) / 3) 1 (by omega) hfit
    rw [l] at g
    exact g
  · by_cases hL49 : L = 49
    · subst hL49
      have c49 : (49 : Nat) = MAX_TARGET_RATIO - 1 := rfl
      simp only [if_neg hL1, if_pos c49] at ht hfit ⊢
      have ht2 : CONFIDENCE_OK ≤ (cal 49).confidence ∧ CONFIDENCE_OK ≤ (cal 48).confidence ∧
          CONFIDENCE_OK ≤ (cal 47).confidence := ht
      have hfit2 : ((cal 49).steady_comp + (cal 48).steady_comp +
          (cal 47).steady_comp) / 3 + 49 < 2 ^ 32 := hfit
      have e := window_comp_exact cal 49 48 47 (by omega)
      have g := get_compensation_high_edge cal ht2
      rw [e] at g
      have l := limit_comp (((cal 49).steady_comp + (cal 48).steady_comp +
        (cal 47).steady_comp) / 3) 49 (by omega) hfit2
      rw [l] at g
      exact g
    · have c49 : ¬ (L = MAX_TARGET_RATIO - 1) := hL49
      simp only [if_neg hL1, if_neg c49] at ht hfit ⊢
      have hfit2 : ((cal (L : Int)).steady_comp + (cal ((L : Int) - 1)).steady_comp +
          (cal ((L : Int) + 1)).steady_comp) / 3 + L < 2 ^ 32 := by
        have : (cal (L : Int)).steady_comp + (cal ((L : Int) - 1)).steady_comp +
            (cal ((L : Int) + 1)).steady_comp = (cal ((L : Int) - 1)).steady_comp +
            (cal (L : Int)).steady_comp + (cal ((L : Int) + 1)).steady_comp := by omega
        rw [this]; exact hfit
      have e := window_comp_exact cal (L : Int) ((L : Int) - 1) ((L : Int) + 1) (by omega)
      have g := get_compensation_interior cal L (by omega) (by omega) ht
      rw [e] at g
      have l := limit_comp (((cal (L : Int)).steady_comp + (cal ((L : Int) - 1)).steady_comp +
        (cal ((L : Int) + 1)).steady_comp) / 3) L (by omega) hfit2
      rw [l] at g
      rw [g]
      have : (cal (L : Int)).steady_comp + (cal ((L : Int) - 1)).steady_comp +
          (cal ((L : Int) + 1)).steady_comp = (cal ((L : Int) - 1)).steady_comp +
          (cal (L : Int)).steady_comp + (cal ((L : Int) + 1)).steady_comp := by omega
      rw [this]
      rfl

/-- Whatever the table holds, the `unsigned int` sum of a level below
`MAX_TARGET_RATIO` and its compensation stays below `MAX_TARGET_RATIO`. -/
theorem level_plus_compensation_lt (cal : cal_table) (T : Nat) (hT : T < MAX_TARGET_RATIO) :
    (T + get_compensation cal (T : Int)) % 2 ^ 32 < MAX_TARGET_RATIO := by
  have h50 : T < 50 := hT
  have hu : int_to_u32 (T : Int) = T := int_to_u32_natCast T (by omega)
  unfold get_compensation
  simp only [hu]
  generalize (if (T : Int) = 1 ∧ CONFIDENCE_OK ≤ (cal (T : Int)).confidence ∧
        CONFIDENCE_OK ≤ (cal ((T : Int) + 1)).confidence ∧
        CONFIDENCE_OK ≤ (cal ((T : Int) + 2)).confidence then
      window_comp cal (T : Int) ((T : Int) + 1) ((T : Int) + 2)
    else if T = MAX_TARGET_RATIO - 1 ∧ CONFIDENCE_OK ≤ (cal (T : Int)).confidence ∧
        CONFIDENCE_OK ≤ (cal ((T : Int) - 1)).confidence ∧
        CONFIDENCE_OK ≤ (cal ((T : Int) - 2)).confidence then
      window_comp cal (T : Int) ((T : Int) - 1) ((T : Int) - 2)
    else if CONFIDENCE_OK ≤ (cal (T : Int)).confidence ∧
        CONFIDENCE_OK ≤ (cal ((T : Int) - 1)).confidence ∧
        CONFIDENCE_OK ≤ (cal ((T : Int) + 1)).confidence then
      window_comp cal (T : Int) ((T : Int) - 1) ((T : Int) + 1)
    else 0) = comp
  unfold MAX_TARGET_RATIO sub_u32
  split_ifs with h
  · omega
  · unfold MAX_TARGET_RATIO at h
    omega

/-- C4: for a stored target below `MAX_TARGET_RATIO` the compensated ratio
`get_run_time` divides by is the `unsigned int` sum of the target and its
compensation with a floor of 1, it lies between 1 and
`MAX_TARGET_RATIO - 1`, and for `100 * def_idle_duration < 2^32` the
subtraction does not wrap: the run time is `100 * P / ratio - P`. -/
theorem get_run_time_ratio_in_range (s : globals)
    (hT : s.set_target_ratio < MAX_TARGET_RATIO) :
    (compensated_ratio s.cal_data s.set_target_ratio =
      if (s.set_target_ratio + get_compensation s.cal_data (s.set_target_ratio : Int)) % 2 ^ 32 = 0
      then 1
      else (s.set_target_ratio + get_compensation s.cal_data (s.set_target_ratio : Int)) % 2 ^ 32) ∧
    1 ≤ compensated_ratio s.cal_data s.set_target_ratio ∧
    compensated_ratio s.cal_data s.set_target_ratio ≤ MAX_TARGET_RATIO - 1 ∧
    (100 * s.def_idle_duration < 2 ^ 32 →
      s.def_idle_duration ≤
        (s.def_idle_duration * 100 % 2 ^ 32) / compensated_ratio s.cal_data s.set_target_ratio ∧
      (get_run_time s).1 =
        100 * s.def_idle_duration / compensated_ratio s.cal_data s.set_target_ratio -
          s.def_idle_duration) := by
  have h50 : s.set_target_ratio < 50 := hT
  have hlt := level_plus_compensation_lt s.cal_data s.set_target_ratio hT
  have hi : u32_to_int s.set_target_ratio = (s.set_target_ratio : Int) :=
    u32_to_int_of_lt _ (by omega)
  have hcr : compensated_ratio s.cal_data s.set_target_ratio =
      if (s.set_target_ratio + get_compensation s.cal_data (s.set_target_ratio : Int)) % 2 ^ 32 = 0
      then 1
      else (s.set_target_ratio + get_compensation s.cal_data (s.set_target_ratio : Int)) % 2 ^ 32 := by
    unfold compensated_ratio
    simp only [hi, Nat.le_zero_eq]
  unfold MAX_TARGET_RATIO at hlt ⊢
  have h1 : 1 ≤ compensated_ratio s.cal_data s.set_target_ratio := by
    rw [hcr]; split_ifs <;> omega
  have h49 : compensated_ratio s.cal_data s.set_target_ratio ≤ 49 := by
    rw [hcr]; split_ifs <;> omega
  refine ⟨hcr, h1, h49, ?_⟩
  intro hP
  have key : ∀ cr : Nat, 1 ≤ cr → cr ≤ 49 →
      s.def_idle_duration ≤ (s.def_idle_duration * 100 % 2 ^ 32) / cr ∧
      sub_u32 ((s.def_idle_duration * 100 % 2 ^ 32) / cr) s.def_idle_duration =
        100 * s.def_idle_duration / cr - s.def_idle_duration := by
    intro cr c1 c49
    have hmod : s.def_idle_duration * 100 % 2 ^ 32 = 100 * s.def_idle_duration := by
      rw [Nat.mul_comm]; exact Nat.mod_eq_of_lt hP
    have hle : s.def_idle_duration ≤ 100 * s.def_idle_duration / cr := by
      rw [Nat.le_div_iff_mul_le (by omega)]
      calc s.def_idle_duration * cr ≤ s.def_idle_duration * 100 :=
            Nat.mul_le_mul_left _ (by omega)
        _ = 100 * s.def_idle_duration := Nat.mul_comm _ _
    have hq : 100 * s.def_idle_duration / cr < 2 ^ 32 :=
      lt_of_le_of_lt (Nat.div_le_self _ _) hP
    rw [hmod]
    refine ⟨hle, ?_⟩
    unfold sub_u32
    omega
  exact key _ h1 h49

/-- A target of 10 on the untouched table with a period of 6000 us: the
compensated ratio is 10 and the run time is 54000 us. -/
theorem get_run_time_ratio_in_range_witness :
    compensated_ratio (globals_init 6000).cal_data 10 = 10 ∧
    (get_run_time { globals_init 6000 with set_target_ratio := 10 }).1 = 54000 := by
  have h := get_run_time_ratio_in_range { globals_init 6000 with set_target_ratio := 10 }
    (by decide)
  refine ⟨by decide, ?_⟩
  rw [(h.2.2.2 (by decide)).2]
  decide

end Compensation

section Calibration

open powerclamp

/-- C5: for an entry at level `L` whose confidence is below `CONFIDENCE_OK`,
with `delta = set_target_ratio - current_ratio` (the `int` the code computes,
which is the difference of the two ratios when both are below `2^31`): when
`0 ≤ delta ≤ 1 + L / 10` the entry gets the steady compensation
`roundup(delta + steady_comp, 2) / 2` if the old one is non-zero (which is
`(delta + steady_comp + 1) / 2` unless the `unsigned long` sum wraps) and
`delta` otherwise, its confidence grows by one and no other entry changes;
when `delta` is outside the band the table is unchanged. -/
theorem adjust_compensation_untrusted_entry (cal : cal_table)
    (set_target_ratio current_ratio : Nat) (L : Int) (hL : 0 ≤ L)
    (hconf : (cal L).confidence < CONFIDENCE_OK) :
    (set_target_ratio < 2 ^ 31 → current_ratio < 2 ^ 31 →
      delta_of set_target_ratio current_ratio = (set_target_ratio : Int) - current_ratio) ∧
    (0 ≤ delta_of set_target_ratio current_ratio ∧
        delta_of set_target_ratio current_ratio ≤ 1 + L / 10 →
      (adjust_compensation cal set_target_ratio current_ratio L L).steady_comp =
        (if (cal L).steady_comp ≠ 0 then
          roundup ((delta_of set_target_ratio current_ratio).toNat + (cal L).steady_comp) 2 / 2
        else (delta_of set_target_ratio current_ratio).toNat) ∧
      ((cal L).steady_comp ≠ 0 →
        (delta_of set_target_ratio current_ratio).toNat + (cal L).steady_comp + 1 < 2 ^ 64 →
        (adjust_compensation cal set_target_ratio current_ratio L L).steady_comp =
          ((delta_of set_target_ratio current_ratio).toNat + (cal L).steady_comp + 1) / 2) ∧
      (adjust_compensation cal set_target_ratio current_ratio L L).confidence =
        (cal L).confidence + 1 ∧
      (adjust_compensation cal set_target_ratio current_ratio L L).dynamic_comp =
        (cal L).dynamic_comp ∧
      ∀ i : Int, i ≠ L → adjust_compensation cal set_target_ratio current_ratio L i = cal i) ∧
    (¬ (0 ≤ delta_of set_target_ratio current_ratio ∧
        delta_of set_target_ratio current_ratio ≤ 1 + L / 10) →
      adjust_compensation cal set_target_ratio current_ratio L = cal) := by
  have hnot : ¬ CONFIDENCE_OK ≤ (cal L).confidence := by omega
  have hdiv : Int.tdiv L 10 = L / 10 := Int.tdiv_eq_ediv hL (by decide)
  have hc3 : (cal L).confidence < 3 := hconf
  refine ⟨?_, ?_, ?_⟩
  · intro hs hc
    unfold delta_of u32_to_int sub_u32
    split_ifs <;> omega
  · intro hband
    have hd64 : int_to_u64 (delta_of set_target_ratio current_ratio) =
        (delta_of set_target_ratio current_ratio).toNat := by
      apply int_to_u64_of_nonneg _ hband.1
      have : delta_of set_target_ratio current_ratio < 2 ^ 31 := by
        unfold delta_of u32_to_int
        split_ifs <;> omega
      omega
    have hband2 : 0 ≤ delta_of set_target_ratio current_ratio ∧
        delta_of set_target_ratio current_ratio ≤ 1 + Int.tdiv L 10 := by
      rw [hdiv]; exact hband
    have hval : adjust_compensation cal set_target_ratio current_ratio L =
        Function.update cal L
          { cal L with
            steady_comp :=
              if (cal L).steady_comp ≠ 0 then
                roundup ((delta_of set_target_ratio current_ratio).toNat +
                  (cal L).steady_comp) 2 / 2
              else (delta_of set_target_ratio current_ratio).toNat
            confidence := ((cal L).confidence + 1) % 2 ^ 64 } := by
      unfold adjust_compensation
      simp only [if_neg hnot, if_pos hband2, hd64]
    rw [hval]
    refine ⟨by simp, ?_, ?_, by simp, ?_⟩
    · intro hsc hfit
      simp only [Function.update_same, if_pos hsc]
      unfold roundup
      omega
    · simp only [Function.update_same]
      omega
    · intro i hi
      simp [Function.update_noteq hi]
  · intro hband
    have hband2 : ¬ (0 ≤ delta_of set_target_ratio current_ratio ∧
        delta_of set_target_ratio current_ratio ≤ 1 + Int.tdiv L 10) := by
      rw [hdiv]; exact hband
    unfold adjust_compensation
    simp only [if_neg hnot, if_neg hband2]

/-- Level 10 from the empty table, with a target of 10 and a measured ratio
of 8 (`delta = 2`): the first sample seeds the entry with 2, and three such
samples give confidence 3 and steady compensation 2. -/
theorem adjust_compensation_untrusted_entry_witness :
    delta_of 10 8 = 2 ∧
    (adjust_compensation cal_data_init 10 8 10 10).steady_comp = 2 ∧
    (adjust_compensation cal_data_init 10 8 10 10).confidence = 1 ∧
    adjust_all cal_data_init
      [{ target_ratio := 10, set_target_ratio := 10, current_ratio := 8 },
       { target_ratio := 10, set_target_ratio := 10, current_ratio := 8 },
       { target_ratio := 10, set_target_ratio := 10, current_ratio := 8 }] 10 =
      { confidence := 3, steady_comp := 2, dynamic_comp := 0 } := by
  have h := (adjust_compensation_untrusted_entry cal_data_init 10 8 10 (by decide)
    (by decide)).2.1 (by decide)
  refine ⟨by decide, ?_, ?_, by decide⟩
  · rw [h.1]; decide
  · rw [h.2.2.1]; decide

/-- A call of `adjust_compensation` leaves the table alone or replaces the
entry of its level, then untrusted, by one with one more confidence. -/
theorem adjust_compensation_cases (cal : cal_table) (st cr : Nat) (t : Int) :
    adjust_compensation cal st cr t = cal ∨
    ((cal t).confidence < CONFIDENCE_OK ∧
      ∃ e : powerclamp_calibration_data, e.confidence = (cal t).confidence + 1 ∧
        adjust_compensation cal st cr t = Function.update cal t e) := by
  unfold adjust_compensation
  by_cases h1 : CONFIDENCE_OK ≤ (cal t).confidence
  · left; simp only [if_pos h1]
  · by_cases h2 : 0 ≤ delta_of st cr ∧ delta_of st cr ≤ 1 + Int.tdiv t 10
    · right
      refine ⟨by omega,
        { cal t with
          steady_comp :=
            if (cal t).steady_comp ≠ 0 then
              roundup (int_to_u64 (delta_of st cr) + (cal t).steady_comp) 2 / 2
            else int_to_u64 (delta_of st cr)
          confidence := ((cal t).confidence + 1) % 2 ^ 64 }, ?_,
        by simp only [if_neg h1, if_pos h2]⟩
      unfold CONFIDENCE_OK at h1
      dsimp only
      omega
    · left; simp only [if_neg h1, if_neg h2]

theorem adjust_compensation_frozen (cal : cal_table) (st cr : Nat) (t i : Int)
    (h : CONFIDENCE_OK ≤ (cal i).confidence) : adjust_compensation cal st cr t i = cal i := by
  rcases adjust_compensation_cases cal st cr t with e | ⟨hlt, e, _, he⟩
  · rw [e]
  · have hi : i ≠ t := by
      intro hit; subst hit; omega
    rw [he, Function.update_noteq hi]

theorem adjust_compensation_confidence_mono (cal : cal_table) (st cr : Nat) (t i : Int) :
    (cal i).confidence ≤ (adjust_compensation cal st cr t i).confidence := by
  rcases adjust_compensation_cases cal st cr t with e | ⟨hlt, e, hc, he⟩
  · rw [e]
  · rw [he]
    by_cases hi : i = t
    · subst hi; rw [Function.update_same, hc]; omega
    · rw [Function.update_noteq hi]

theorem adjust_compensation_confidence_le (cal : cal_table) (st cr : Nat) (t i : Int)
    (h : (cal i).confidence ≤ CONFIDENCE_OK) :
    (adjust_compensation cal st cr t i).confidence ≤ CONFIDENCE_OK := by
  rcases adjust_compensation_cases cal st cr t with e | ⟨hlt, e, hc, he⟩
  · rw [e]; exact h
  · rw [he]
    by_cases hi : i = t
    · subst hi; rw [Function.update_same, hc]; omega
    · rw [Function.update_noteq hi]; exact h

theorem adjust_all_append (cal : cal_table) (xs ys : List sample) :
    adjust_all cal (xs ++ ys) = adjust_all (adjust_all cal xs) ys := by
  induction xs generalizing cal with
  | nil => rfl
  | cons x xs ih => exact ih _

theorem adjust_all_frozen (cal : cal_table) (ys : List sample) (i : Int)
    (h : CONFIDENCE_OK ≤ (cal i).confidence) : adjust_all cal ys i = cal i := by
  induction ys generalizing cal with
  | nil => rfl
  | cons y ys ih =>
    have e := adjust_compensation_frozen cal y.set_target_ratio y.current_ratio y.target_ratio i h
    show adjust_all (adjust_compensation cal y.set_target_ratio y.current_ratio
      y.target_ratio) ys i = cal i
    rw [ih _ (by rw [e]; exact h), e]

theorem adjust_all_confidence_mono (cal : cal_table) (ys : List sample) (i : Int) :
    (cal i).confidence ≤ (adjust_all cal ys i).confidence := by
  induction ys generalizing cal with
  | nil => exact le_refl _
  | cons y ys ih =>
    exact le_trans (adjust_compensation_confidence_mono cal y.set_target_ratio
      y.current_ratio y.target_ratio i) (ih _)

theorem adjust_all_confidence_le (cal : cal_table) (ys : List sample) (i : Int)
    (h : (cal i).confidence ≤ CONFIDENCE_OK) :
    (adjust_all cal ys i).confidence ≤ CONFIDENCE_OK := by
  induction ys generalizing cal with
  | nil => exact h
  | cons y ys ih =>
    exact ih _ (adjust_compensation_confidence_le cal y.set_target_ratio
      y.current_ratio y.target_ratio i h)

/-- C6: from the all-zero table, after any calls `xs` of
`adjust_compensation` and any further calls `ys`, every entry's confidence
has not decreased, is at most `CONFIDENCE_OK`, and an entry that had
reached `CONFIDENCE_OK` after `xs` is the same entry after `ys`
(confidence, steady and dynamic compensation). -/
theorem confidence_monotone_and_saturating (xs ys : List sample) (i : Int) :
    (adjust_all cal_data_init xs i).confidence ≤
      (adjust_all cal_data_init (xs ++ ys) i).confidence ∧
    (adjust_all cal_data_init (xs ++ ys) i).confidence ≤ CONFIDENCE_OK ∧
    (CONFIDENCE_OK ≤ (adjust_all cal_data_init xs i).confidence →
      adjust_all cal_data_init (xs ++ ys) i = adjust_all cal_data_init xs i) := by
  rw [adjust_all_append]
  refine ⟨adjust_all_confidence_mono _ ys i, ?_, adjust_all_frozen _ ys i⟩
  rw [← adjust_all_append]
  exact adjust_all_confidence_le cal_data_init _ i (Nat.zero_le _)

/-- Three clean samples at level 10 bring its entry to `CONFIDENCE_OK`; a
fourth call with a different clean delta leaves the entry as it was. -/
theorem confidence_monotone_and_saturating_witness :
    CONFIDENCE_OK ≤ (adjust_all cal_data_init
      [{ target_ratio := 10, set_target_ratio := 10, current_ratio := 8 },
       { target_ratio := 10, set_target_ratio := 10, current_ratio := 8 },
       { target_ratio := 10, set_target_ratio := 10, current_ratio := 8 }] 10).confidence ∧
    adjust_all cal_data_init
      ([{ target_ratio := 10, set_target_ratio := 10, current_ratio := 8 },
        { target_ratio := 10, set_target_ratio := 10, current_ratio := 8 },
        { target_ratio := 10, set_target_ratio := 10, current_ratio := 8 }] ++
       [{ target_ratio := 10, set_target_ratio := 10, current_ratio := 10 }]) 10 =
    adjust_all cal_data_init
      [{ target_ratio := 10, set_target_ratio := 10, current_ratio := 8 },
       { target_ratio := 10, set_target_ratio := 10, current_ratio := 8 },
       { target_ratio := 10, set_target_ratio := 10, current_ratio := 8 }] 10 :=
  ⟨by decide, (confidence_monotone_and_saturating _ _ 10).2.2 (by decide)⟩

end Calibration

section PerCpuController

open cpuidle

theorem set_cur_state_arm (p : params) (h : Nat) (dev : cpuidle_cooling) (lvl : Nat)
    (hs : dev.state = 0) (hi : dev.ii_dev = none) (hl : 0 < lvl) :
    cpuidle_cooling_set_cur_state p (some h) dev lvl =
      (0,
        { dev with
          ii_dev := some h, last_mperf := 0, last_tsc := 0
          run_duration := cpuidle_cooling_runtime (int_to_u32 p.idle_duration_us) lvl
          state := lvl },
        [ext_call.register (some h),
         ext_call.set_duration (some h) p.TICK_USEC (int_to_u32 p.idle_duration_us),
         ext_call.set_latency (some h) (int_to_u32 p.idle_latency_us),
         ext_call.set_duration (some h)
           (cpuidle_cooling_runtime (int_to_u32 p.idle_duration_us) lvl)
           (int_to_u32 p.idle_duration_us),
         ext_call.start (some h)]) := by
  unfold cpuidle_cooling_set_cur_state cpuidle_idle_injection_register
  simp [hs, hi, hl]

theorem set_cur_state_busy (p : params) (dev : cpuidle_cooling) (lvl : Nat)
    (hs : dev.state = 0) (hi : dev.ii_dev = none) (hl : 0 < lvl) :
    cpuidle_cooling_set_cur_state p none dev lvl =
      (-EAGAIN, dev, [ext_call.register none]) := by
  unfold cpuidle_cooling_set_cur_state cpuidle_idle_injection_register
  simp [hs, hi, hl, EAGAIN]

theorem set_cur_state_update (p : params) (reg : Option Nat) (dev : cpuidle_cooling)
    (lvl : Nat) (hs : 0 < dev.state) (hl : 0 < lvl) :
    cpuidle_cooling_set_cur_state p reg dev lvl =
      (0,
        { dev with
          run_duration := cpuidle_cooling_runtime (int_to_u32 p.idle_duration_us) lvl
          state := lvl },
        [ext_call.set_duration dev.ii_dev
           (cpuidle_cooling_runtime (int_to_u32 p.idle_duration_us) lvl)
           (int_to_u32 p.idle_duration_us)]) := by
  unfold cpuidle_cooling_set_cur_state
  have h0 : dev.state ≠ 0 := by omega
  have h1 : lvl ≠ 0 := by omega
  simp [h0, h1, hs]

theorem set_cur_state_disarm (p : params) (reg : Option Nat) (dev : cpuidle_cooling)
    (hs : 0 < dev.state) :
    cpuidle_cooling_set_cur_state p reg dev 0 =
      (0, { dev with ii_dev := none, state := 0 },
        [ext_call.stop dev.ii_dev, ext_call.unregister dev.ii_dev]) := by
  unfold cpuidle_cooling_set_cur_state cpuidle_idle_injection_unregister
  simp [hs]

theorem set_cur_state_idle_zero (p : params) (reg : Option Nat) (dev : cpuidle_cooling)
    (hs : dev.state = 0) :
    cpuidle_cooling_set_cur_state p reg dev 0 = (0, { dev with state := 0 }, []) := by
  unfold cpuidle_cooling_set_cur_state
  simp [hs]

/-- What one request does to a controller that holds a device exactly when
its level is non-zero, when registration succeeds. -/
theorem set_cur_state_step (p : params) (h : Nat) (dev : cpuidle_cooling) (lvl : Nat)
    (hI : dev.state = 0 ↔ dev.ii_dev = none) :
    (cpuidle_cooling_set_cur_state p (some h) dev lvl).1 = 0 ∧
    (cpuidle_cooling_set_cur_state p (some h) dev lvl).2.1.state = lvl ∧
    ((cpuidle_cooling_set_cur_state p (some h) dev lvl).2.1.state = 0 ↔
      (cpuidle_cooling_set_cur_state p (some h) dev lvl).2.1.ii_dev = none) ∧
    ((cpuidle_cooling_set_cur_state p (some h) dev lvl).2.2.filter ext_call.is_register =
      if dev.state = 0 ∧ 0 < lvl then [ext_call.register (some h)] else []) ∧
    ((cpuidle_cooling_set_cur_state p (some h) dev lvl).2.2.filter ext_call.is_unregister =
      if 0 < dev.state ∧ lvl = 0 then [ext_call.unregister dev.ii_dev] else []) ∧
    (dev.state = 0 → 0 < lvl →
      (cpuidle_cooling_set_cur_state p (some h) dev lvl).2.1.ii_dev = some h) ∧
    (0 < dev.state → 0 < lvl →
      (cpuidle_cooling_set_cur_state p (some h) dev lvl).2.1.ii_dev = dev.ii_dev) := by
  by_cases hs : dev.state = 0
  · have hi : dev.ii_dev = none := hI.1 hs
    by_cases hl : lvl = 0
    · subst hl
      rw [set_cur_state_idle_zero p _ dev hs]
      simp [hs, hi]
    · have hl2 : 0 < lvl := by omega
      rw [set_cur_state_arm p h dev lvl hs hi hl2]
      simp [hs, hl2, hl, ext_call.is_register, ext_call.is_unregister]
  · have hs2 : 0 < dev.state := by omega
    have hi : dev.ii_dev ≠ none := fun c => hs (hI.2 c)
    by_cases hl : lvl = 0
    · subst hl
      rw [set_cur_state_disarm p _ dev hs2]
      simp [hs, hs2, ext_call.is_register, ext_call.is_unregister]
    · have hl2 : 0 < lvl := by omega
      rw [set_cur_state_update p _ dev lvl hs2 hl2]
      simp [hs, hl, hi, ext_call.is_register, ext_call.is_unregister]

theorem run_requests_append (p : params) (st : cpuidle_cooling × List ext_call)
    (xs ys : List request) :
    run_requests p st (xs ++ ys) = run_requests p (run_requests p st xs) ys := by
  induction xs generalizing st with
  | nil => rfl
  | cons x xs ih => exact ih _

/-- While every registration succeeds, the controller holds a device
exactly when its stored level is non-zero. -/
theorem run_requests_invariant (p : params) (st : cpuidle_cooling × List ext_call)
    (rs : List request) (hI : st.1.state = 0 ↔ st.1.ii_dev = none)
    (hrs : ∀ x ∈ rs, x.reg ≠ none) :
    (run_requests p st rs).1.state = 0 ↔ (run_requests p st rs).1.ii_dev = none := by
  induction rs generalizing st with
  | nil => exact hI
  | cons r rs ih =>
    obtain ⟨h, hh⟩ := Option.ne_none_iff_exists.mp (hrs r (List.mem_cons_self _ _))
    have hstep := set_cur_state_step p h st.1 r.level hI
    show (run_requests p ((cpuidle_cooling_set_cur_state p r.reg st.1 r.level).2.1,
      st.2 ++ (cpuidle_cooling_set_cur_state p r.reg st.1 r.level).2.2) rs).1.state = 0 ↔ _
    apply ih
    · rw [← hh]; exact hstep.2.2.1
    · intro x hx; exact hrs x (List.mem_cons_of_mem _ hx)

/-- A run of non-zero levels on an armed controller keeps the device and
neither registers nor unregisters. -/
theorem run_requests_armed (p : params) (st : cpuidle_cooling × List ext_call)
    (rs : List request) (hs : 0 < st.1.state) (hrs : ∀ x ∈ rs, 0 < x.level) :
    0 < (run_requests p st rs).1.state ∧
    (run_requests p st rs).1.ii_dev = st.1.ii_dev ∧
    (run_requests p st rs).2.filter ext_call.is_register =
      st.2.filter ext_call.is_register ∧
    (run_requests p st rs).2.filter ext_call.is_unregister =
      st.2.filter ext_call.is_unregister := by
  induction rs generalizing st with
  | nil => exact ⟨hs, rfl, rfl, rfl⟩
  | cons r rs ih =>
    have hl : 0 < r.level := hrs r (List.mem_cons_self _ _)
    have e := set_cur_state_update p r.reg st.1 r.level hs hl
    have ih2 := ih ((cpuidle_cooling_set_cur_state p r.reg st.1 r.level).2.1,
      st.2 ++ (cpuidle_cooling_set_cur_state p r.reg st.1 r.level).2.2)
      (by rw [e]; exact hl) (fun x hx => hrs x (List.mem_cons_of_mem _ hx))
    rw [e] at ih2
    refine ⟨?_, ?_, ?_, ?_⟩
    · show 0 < (run_requests p ((cpuidle_cooling_set_cur_state p r.reg st.1 r.level).2.1,
        st.2 ++ (cpuidle_cooling_set_cur_state p r.reg st.1 r.level).2.2) rs).1.state
      rw [e]; exact ih2.1
    · show (run_requests p ((cpuidle_cooling_set_cur_state p r.reg st.1 r.level).2.1,
        st.2 ++ (cpuidle_cooling_set_cur_state p r.reg st.1 r.level).2.2) rs).1.ii_dev = _
      rw [e]; exact ih2.2.1
    · show (run_requests p ((cpuidle_cooling_set_cur_state p r.reg st.1 r.level).2.1,
        st.2 ++ (cpuidle_cooling_set_cur_state p r.reg st.1 r.level).2.2) rs).2.filter _ = _
      rw [e, ih2.2.2.1]
      simp [ext_call.is_register]
    · show (run_requests p ((cpuidle_cooling_set_cur_state p r.reg st.1 r.level).2.1,
        st.2 ++ (cpuidle_cooling_set_cur_state p r.reg st.1 r.level).2.2) rs).2.filter _ = _
      rw [e, ih2.2.2.2]
      simp [ext_call.is_unregister]

/-- C8: on a per-CPU controller that starts idle, with every registration
succeeding.  After any requests `pre`, a further request `r` succeeds,
stores its level, calls `idle_inject_register` once if it takes the level
from 0 to non-zero and not otherwise, calls `idle_inject_unregister` once
if it takes the level from non-zero to 0 and not otherwise, and, when the
level stays non-zero, keeps the device and makes the one call
`idle_inject_set_duration`.  A non-empty run `ls` of non-zero levels
followed by level 0 leaves no device and level 0, and its whole trace
holds one register call and one unregister call, of the device the first
request registered. -/
theorem set_cur_state_registration_discipline (p : params) (dev0 : cpuidle_cooling)
    (pre : List request) (r : request) (ls : List request) (z : request)
    (hidle : dev0.state = 0 ∧ dev0.ii_dev = none)
    (hpre : ∀ x ∈ pre, x.reg ≠ none) (hr : r.reg ≠ none)
    (hls : ls ≠ [] ∧ ∀ x ∈ ls, x.reg ≠ none ∧ 0 < x.level) (hz : z.level = 0) :
    ((cpuidle_cooling_set_cur_state p r.reg (run_requests p (dev0, []) pre).1 r.level).1 = 0 ∧
     (cpuidle_cooling_set_cur_state p r.reg
        (run_requests p (dev0, []) pre).1 r.level).2.1.state = r.level ∧
     ((cpuidle_cooling_set_cur_state p r.reg
        (run_requests p (dev0, []) pre).1 r.level).2.2.filter ext_call.is_register).length =
       (if (run_requests p (dev0, []) pre).1.state = 0 ∧ 0 < r.level then 1 else 0) ∧
     ((cpuidle_cooling_set_cur_state p r.reg
        (run_requests p (dev0, []) pre).1 r.level).2.2.filter ext_call.is_unregister).length =
       (if 0 < (run_requests p (dev0, []) pre).1.state ∧ r.level = 0 then 1 else 0) ∧
     (0 < (run_requests p (dev0, []) pre).1.state → 0 < r.level →
       (cpuidle_cooling_set_cur_state p r.reg
          (run_requests p (dev0, []) pre).1 r.level).2.1.ii_dev =
         (run_requests p (dev0, []) pre).1.ii_dev ∧
       (cpuidle_cooling_set_cur_state p r.reg
          (run_requests p (dev0, []) pre).1 r.level).2.2 =
         [ext_call.set_duration (run_requests p (dev0, []) pre).1.ii_dev
            (cpuidle_cooling_runtime (int_to_u32 p.idle_duration_us) r.level)
            (int_to_u32 p.idle_duration_us)])) ∧
    ((run_requests p (dev0, []) (ls ++ [z])).1.ii_dev = none ∧
     (run_requests p (dev0, []) (ls ++ [z])).1.state = 0 ∧
     (run_requests p (dev0, []) (ls ++ [z])).2.filter ext_call.is_register =
       [ext_call.register (ls.head?.bind request.reg)] ∧
     (run_requests p (dev0, []) (ls ++ [z])).2.filter ext_call.is_unregister =
       [ext_call.unregister (ls.head?.bind request.reg)]) := by
  constructor
  · have hI := run_requests_invariant p (dev0, []) pre
      (by simp [hidle.1, hidle.2]) hpre
    obtain ⟨h, hh⟩ := Option.ne_none_iff_exists.mp hr
    have hstep := set_cur_state_step p h (run_requests p (dev0, []) pre).1 r.level hI
    rw [← hh]
    refine ⟨hstep.1, hstep.2.1, ?_, ?_, ?_⟩
    · rw [hstep.2.2.2.1]; split_ifs <;> rfl
    · rw [hstep.2.2.2.2.1]; split_ifs <;> rfl
    · intro hs hl
      rw [set_cur_state_update p (some h) _ r.level hs hl]
      exact ⟨rfl, rfl⟩
  · obtain ⟨hne, hall⟩ := hls
    cases ls with
    | nil => exact absurd rfl hne
    | cons a rest =>
      obtain ⟨h, hh⟩ := Option.ne_none_iff_exists.mp (hall a (List.mem_cons_self _ _)).1
      have hl : 0 < a.level := (hall a (List.mem_cons_self _ _)).2
      have earm := set_cur_state_arm p h dev0 a.level hidle.1 hidle.2 hl
      have hrun : run_requests p (dev0, []) (a :: rest ++ [z]) =
          run_requests p (run_requests p
            ((cpuidle_cooling_set_cur_state p a.reg dev0 a.level).2.1,
             [] ++ (cpuidle_cooling_set_cur_state p a.reg dev0 a.level).2.2) rest) [z] := by
        rw [List.cons_append]
        show run_requests p ((cpuidle_cooling_set_cur_state p a.reg dev0 a.level).2.1,
             [] ++ (cpuidle_cooling_set_cur_state p a.reg dev0 a.level).2.2) (rest ++ [z]) = _
        rw [run_requests_append]
      rw [hrun, ← hh, earm]
      have harmed := run_requests_armed p
        (({ dev0 with
            ii_dev := some h, last_mperf := 0, last_tsc := 0
            run_duration := cpuidle_cooling_runtime (int_to_u32 p.idle_duration_us) a.level
            state := a.level } : cpuidle_cooling),
          [] ++ [ext_call.register (some h),
           ext_call.set_duration (some h) p.TICK_USEC (int_to_u32 p.idle_duration_us),
           ext_call.set_latency (some h) (int_to_u32 p.idle_latency_us),
           ext_call.set_duration (some h)
             (cpuidle_cooling_runtime (int_to_u32 p.idle_duration_us) a.level)
             (int_to_u32 p.idle_duration_us),
           ext_call.start (some h)]) rest hl
        (fun x hx => (hall x (List.mem_cons_of_mem _ hx)).2)
      obtain ⟨hpos, hdev, hreg, hunreg⟩ := harmed
      generalize run_requests p _ rest = mid at hpos hdev hreg hunreg ⊢
      have ez : run_requests p mid [z] =
          ((cpuidle_cooling_set_cur_state p z.reg mid.1 z.level).2.1,
            mid.2 ++ (cpuidle_cooling_set_cur_state p z.reg mid.1 z.level).2.2) := rfl
      rw [ez, hz, set_cur_state_disarm p z.reg mid.1 hpos]
      simp only [List.filter_append, hreg, hunreg, hdev]
      simp [ext_call.is_register, ext_call.is_unregister, hh]

/-- From the idle controller: level 30, level 30 again and level 60 with
device 7, then level 0.  The second request re-registers nothing, and the
run ends with no device and one unregister call, of device 7. -/
theorem set_cur_state_registration_discipline_witness :
    (cpuidle_cooling_set_cur_state default_params (some 7)
      (run_requests default_params (cooling_dev_init, [])
        [{ level := 30, reg := some 7 }]).1 30).2.2 =
      [ext_call.set_duration (some 7) 56000 24000] ∧
    (run_requests default_params (cooling_dev_init, [])
      ([{ level := 30, reg := some 7 }, { level := 30, reg := some 7 },
        { level := 60, reg := some 7 }] ++ [{ level := 0, reg := some 7 }])).1.ii_dev = none ∧
    (run_requests default_params (cooling_dev_init, [])
      ([{ level := 30, reg := some 7 }, { level := 30, reg := some 7 },
        { level := 60, reg := some 7 }] ++
        [{ level := 0, reg := some 7 }])).2.filter ext_call.is_unregister =
      [ext_call.unregister (some 7)] := by
  have h := set_cur_state_registration_discipline default_params cooling_dev_init
    [{ level := 30, reg := some 7 }] { level := 30, reg := some 7 }
    [{ level := 30, reg := some 7 }, { level := 30, reg := some 7 },
      { level := 60, reg := some 7 }] { level := 0, reg := some 7 }
    (by decide) (by decide) (by decide) (by decide) (by decide)
  refine ⟨?_, h.2.1, h.2.2.2.2⟩
  rw [(h.1.2.2.2.2 (by decide) (by decide)).2]
  decide

/-- C9 as stated fails in three places.  At target 60 with the CPU busy for
the whole interval the effective percentage is 0 and the programmed run
time is 0, below the nominal 16000.  At target 3 an effective percentage
of 3, which is not below the target at all, still enters compensation,
since `state - 5` wraps.  At a period of 85000000 us, where `100 * P`
exceeds `2^32`, target 60 and effective percentage 40 program a run
time below `cpuidle_cooling_runtime P 60`. -/
theorem idle_inject_end_hysteresis_fails :
    (eff_state armed_at_60 2000 2000 = 0 ∧
      idle_inject_end armed_at_60 24000 2000 2000 =
        some ({ armed_at_60 with comp_active := true, last_mperf := 2000, last_tsc := 2000 },
          [ext_call.set_duration (some 7) 0 24000]) ∧
      cpuidle_cooling_runtime 24000 60 = 16000) ∧
    (eff_state armed_at_3 2000 1970 = 3 ∧
      idle_inject_end armed_at_3 24000 2000 1970 =
        some ({ armed_at_3 with comp_active := true, last_mperf := 1970, last_tsc := 2000 },
          [ext_call.set_duration (some 7) (cpuidle_cooling_runtime 24000 3) 24000])) ∧
    (eff_state armed_at_60 2000 1600 = 40 ∧
      idle_inject_end armed_at_60 85000000 2000 1600 =
        some ({ armed_at_60 with comp_active := true, last_mperf := 1600, last_tsc := 2000 },
          [ext_call.set_duration (some 7) 20125817 85000000]) ∧
      cpuidle_cooling_runtime 85000000 60 = 4280051174) := by
  decide

/-- C9, amended: in `idle_inject_end` with a previous sample and a non-zero
counter interval, for a target `T` from 5 to 100 and an effective
percentage `E` from 0 to 100.  If `E < T - 5` the callback sets
`comp_active` and programs `cpuidle_cooling_runtime P E`, which is at
least `cpuidle_cooling_runtime P T` when `1 ≤ E` and `100 * P < 2^32`, and
is 0 when `E = 0`.  If `T - 5 ≤ E` the flag is clear afterwards, and the
stored `run_duration` is programmed exactly when the flag was set. -/
theorem idle_inject_end_hysteresis (dev : cpuidle_cooling) (P tsc mperf : Nat) (E : Int)
    (hT : 5 ≤ dev.state ∧ dev.state ≤ 100) (hprev : dev.last_mperf ≠ 0)
    (hdiv : sub_u64 tsc dev.last_tsc ≠ 0)
    (hE : eff_state dev tsc mperf = E) (hE0 : 0 ≤ E ∧ E ≤ 100) :
    (E < (dev.state : Int) - 5 →
      idle_inject_end dev P tsc mperf =
        some ({ dev with comp_active := true, last_mperf := mperf, last_tsc := tsc },
          [ext_call.set_duration dev.ii_dev (cpuidle_cooling_runtime P E.toNat) P]) ∧
      (1 ≤ E → 100 * P < 2 ^ 32 →
        cpuidle_cooling_runtime P dev.state ≤ cpuidle_cooling_runtime P E.toNat) ∧
      (E = 0 → cpuidle_cooling_runtime P E.toNat = 0)) ∧
    ((dev.state : Int) - 5 ≤ E →
      idle_inject_end dev P tsc mperf =
        some ({ dev with comp_active := false, last_mperf := mperf, last_tsc := tsc },
          if dev.comp_active then [ext_call.set_duration dev.ii_dev dev.run_duration P]
          else [])) := by
  have h64 : int_to_u64 E = E.toNat := int_to_u64_of_nonneg E hE0.1 (by omega)
  have hsub : sub_u64 dev.state IDLE_ERROR_HYSTERISIS = dev.state - 5 := by
    unfold sub_u64 IDLE_ERROR_HYSTERISIS
    omega
  constructor
  · intro hlt
    have hcond : E.toNat < dev.state - 5 := by omega
    refine ⟨?_, ?_, ?_⟩
    · unfold idle_inject_end
      simp only [if_neg hprev, if_neg hdiv, hE, h64, hsub, if_pos hcond]
    · intro h1 hP
      have a := runtime_no_wrap P E.toNat hP (by omega) (by omega)
      have b := runtime_no_wrap P dev.state hP (by omega) hT.2
      have hmono : 100 * P / dev.state ≤ 100 * P / E.toNat :=
        Nat.div_le_div_left (by omega) (by omega)
      rw [a.2, b.2]
      omega
    · intro h0
      subst h0
      rfl
  · intro hge
    have hcond : ¬ E.toNat < dev.state - 5 := by omega
    unfold idle_inject_end
    simp only [if_neg hprev, if_neg hdiv, hE, h64, hsub, if_neg hcond]
    cases hca : dev.comp_active
    · simp only [Bool.false_eq_true, if_false]
    · simp only [if_true]

/-- Target 60 at a period of 24000 us.  An effective percentage of 50
enters compensation and programs 24000, above the nominal 16000; an
effective percentage of 58 afterwards programs the stored 16000 and clears
the flag. -/
theorem idle_inject_end_hysteresis_witness :
    (idle_inject_end armed_at_60 24000 2000 1500 =
      some ({ armed_at_60 with comp_active := true, last_mperf := 1500, last_tsc := 2000 },
        [ext_call.set_duration (some 7) 24000 24000]) ∧
      cpuidle_cooling_runtime 24000 60 ≤ 24000) ∧
    idle_inject_end
        { armed_at_60 with comp_active := true, last_mperf := 1500, last_tsc := 2000 }
        24000 3000 1920 =
      some ({ armed_at_60 with comp_active := false, last_mperf := 1920, last_tsc := 3000 },
        [ext_call.set_duration (some 7) 16000 24000]) := by
  have h1 := (idle_inject_end_hysteresis armed_at_60 24000 2000 1500 50
    (by decide) (by decide) (by decide) (by decide) (by decide)).1 (by decide)
  have h2 := (idle_inject_end_hysteresis
    { armed_at_60 with comp_active := true, last_mperf := 1500, last_tsc := 2000 }
    24000 3000 1920 58
    (by decide) (by decide) (by decide) (by decide) (by decide)).2 (by decide)
  refine ⟨⟨?_, ?_⟩, ?_⟩
  · rw [h1.1]; decide
  · have := h1.2.1 (by decide) (by decide)
    exact le_trans this (by decide)
  · rw [h2]; decide

end PerCpuController

section PackageController

open powerclamp

/-- C7, evaluated on the package-wide controller: from the idle state
(stored level 0), a request for level 10 while `idle_inject_register`
fails returns `-EAGAIN`, starts no clamping, and leaves the stored level
at 10. -/
theorem powerclamp_set_cur_state_failure_keeps_new_level :
    (globals_init 6000).set_target_ratio = 0 ∧
    (powerclamp_set_cur_state
      { cpu0_online := true, this_cpu := 0, reg := none, TICK_USEC := 1000 }
      (globals_init 6000) 10).1 = -EAGAIN ∧
    (powerclamp_set_cur_state
      { cpu0_online := true, this_cpu := 0, reg := none, TICK_USEC := 1000 }
      (globals_init 6000) 10).2.set_target_ratio = 10 ∧
    (powerclamp_set_cur_state
      { cpu0_online := true, this_cpu := 0, reg := none, TICK_USEC := 1000 }
      (globals_init 6000) 10).2.pdata.clamping = false := by
  decide

theorem find_range_some (q : Nat → Bool) (n i : Nat)
    (h : (List.range n).find? q = some i) :
    i < n ∧ q i = true ∧ ∀ j, j < i → q j = false := by
  induction n with
  | zero => simp at h
  | succ n ih =>
    rw [List.range_succ, List.find?_append] at h
    cases hf : (List.range n).find? q with
    | some k =>
      rw [hf] at h
      simp only [Option.or_some, Option.some.injEq] at h
      subst h
      have := ih hf
      exact ⟨by omega, this.2.1, this.2.2⟩
    | none =>
      rw [hf] at h
      simp only [Option.none_or] at h
      have hnone := List.find?_eq_none.mp hf
      by_cases hq : q n = true
      · simp only [List.find?_cons, hq] at h
        have hin : i = n := by simpa using h.symm
        subst hin
        refine ⟨by omega, hq, ?_⟩
        intro j hj
        have := hnone j (List.mem_range.mpr hj)
        simpa using this
      · simp [List.find?_cons, hq] at h

theorem find_range_none (q : Nat → Bool) (n : Nat)
    (h : (List.range n).find? q = none) : ∀ j, j < n → q j = false := by
  intro j hj
  have := List.find?_eq_none.mp h j (List.mem_range.mpr hj)
  simpa using this

/-- The lowest member of the mask at or above `start`, when there is one. -/
theorem find_next_bit_spec (m : cpumask) (start k : Nat) (hk : m.test k = true)
    (hsk : start ≤ k) :
    m.test (find_next_bit m start) = true ∧ start ≤ find_next_bit m start ∧
    ∀ j, m.test j = true → start ≤ j → find_next_bit m start ≤ j := by
  have hk' : k < m.nr_cpu_ids ∧ m.bits k = true := by
    unfold cpumask.test at hk
    simpa using hk
  unfold find_next_bit
  cases hf : (List.range m.nr_cpu_ids).find? (fun i => decide (start ≤ i) && m.bits i) with
  | none =>
    have := find_range_none _ _ hf k hk'.1
    simp [hsk, hk'.2] at this
  | some i =>
    have hi := find_range_some _ _ _ hf
    simp only [Option.getD_some]
    have hi2 : start ≤ i ∧ m.bits i = true := by simpa using hi.2.1
    refine ⟨by unfold cpumask.test; simp [hi.1, hi2.2], hi2.1, ?_⟩
    intro j hj hsj
    by_contra hlt
    have hj' : j < m.nr_cpu_ids ∧ m.bits j = true := by
      unfold cpumask.test at hj
      simpa using hj
    have := hi.2.2 j (by omega)
    simp [hsj, hj'.2] at this

/-- C10: with at least two CPUs online and the departing CPU `c` among
them, `powerclamp_cpu_predown` leaves `control_cpu` unchanged when `c` is
not the control CPU, and otherwise makes it the lowest-numbered online
CPU other than `c`. -/
theorem powerclamp_cpu_predown_elects (online : cpumask) (control_cpu c other : Nat)
    (hc : online.test c = true) (ho : online.test other = true) (hne : other ≠ c) :
    (c ≠ control_cpu → powerclamp_cpu_predown online control_cpu c = control_cpu) ∧
    (c = control_cpu →
      online.test (powerclamp_cpu_predown online control_cpu c) = true ∧
      powerclamp_cpu_predown online control_cpu c ≠ c ∧
      ∀ j, online.test j = true → j ≠ c → powerclamp_cpu_predown online control_cpu c ≤ j) := by
  constructor
  · intro h
    unfold powerclamp_cpu_predown
    rw [if_pos h]
  · intro h
    subst h
    unfold powerclamp_cpu_predown cpumask_first cpumask_next
    simp only [ne_eq, not_true_eq_false, if_false]
    have hfirst := find_next_bit_spec online 0 c hc (Nat.zero_le _)
    by_cases hf : find_next_bit online 0 = c
    · rw [if_pos hf]
      have hlt : c < other := by
        have := hfirst.2.2 other ho (Nat.zero_le _)
        omega
      have hnext := find_next_bit_spec online (c + 1) other ho hlt
      refine ⟨hnext.1, by omega, ?_⟩
      intro j hj hjc
      have hcj : c ≤ j := by
        have := hfirst.2.2 j hj (Nat.zero_le _)
        omega
      exact hnext.2.2 j hj (by omega)
    · rw [if_neg hf]
      refine ⟨hfirst.1, hf, ?_⟩
      intro j hj _
      exact hfirst.2.2 j hj (Nat.zero_le _)

/-- CPUs 0, 1 and 2 online with control CPU 0: taking CPU 0 offline elects
CPU 1; with control CPU 1, taking CPU 2 offline leaves CPU 1 in control. -/
theorem powerclamp_cpu_predown_elects_witness :
    powerclamp_cpu_predown (cpumask_of_list 8 [0, 1, 2]) 0 0 = 1 ∧
    powerclamp_cpu_predown (cpumask_of_list 8 [1, 2]) 1 2 = 1 := by
  have h1 := (powerclamp_cpu_predown_elects (cpumask_of_list 8 [0, 1, 2]) 0 0 1
    (by decide) (by decide) (by decide)).2 rfl
  have h2 := (powerclamp_cpu_predown_elects (cpumask_of_list 8 [1, 2]) 1 2 1
    (by decide) (by decide) (by decide)).1 (by decide)
  exact ⟨by decide, h2⟩

end PackageController

section Further

open cpuidle powerclamp

/-- On the per-CPU controller, a request for a non-zero level made while
idle (level 0, no device) whose `idle_inject_register` fails returns
`-EAGAIN` and leaves the instance, its level 0 included, as it was. -/
theorem cpuidle_set_cur_state_failure_keeps_level (p : params) (dev : cpuidle_cooling)
    (lvl : Nat) (hs : dev.state = 0) (hi : dev.ii_dev = none) (hl : 0 < lvl) :
    (cpuidle_cooling_set_cur_state p none dev lvl).1 = -EAGAIN ∧
    (cpuidle_cooling_set_cur_state p none dev lvl).2.1 = dev ∧
    (cpuidle_cooling_set_cur_state p none dev lvl).2.1.state = 0 := by
  rw [set_cur_state_busy p dev lvl hs hi hl]
  exact ⟨rfl, rfl, hs⟩

/-- Level 40 requested from the zero-initialised instance with the device
already claimed. -/
theorem cpuidle_set_cur_state_failure_keeps_level_witness :
    (cpuidle_cooling_set_cur_state default_params none cooling_dev_init 40).1 = -11 ∧
    (cpuidle_cooling_set_cur_state default_params none cooling_dev_init 40).2.1.state = 0 := by
  have h := cpuidle_set_cur_state_failure_keeps_level default_params cooling_dev_init 40
    (by decide) (by decide) (by decide)
  exact ⟨h.1, h.2.2⟩

/-- For every table, `get_compensation L` is 0 at a level from 1 to
`MAX_TARGET_RATIO - 1` whose own confidence is below `CONFIDENCE_OK`, and at
an interior level from 2 to `MAX_TARGET_RATIO - 2` one of whose two
neighbours is below `CONFIDENCE_OK`. -/
theorem get_compensation_zero_when_untrusted (cal : cal_table) (L : Nat)
    (h1 : 1 ≤ L) (h49 : L < MAX_TARGET_RATIO)
    (hu : (cal (L : Int)).confidence < CONFIDENCE_OK ∨
      (2 ≤ L ∧ L ≤ MAX_TARGET_RATIO - 2 ∧
        ((cal ((L : Int) - 1)).confidence < CONFIDENCE_OK ∨
         (cal ((L : Int) + 1)).confidence < CONFIDENCE_OK))) :
    get_compensation cal (L : Int) = 0 := by
  have h50 : L < 50 := h49
  have hu32 : int_to_u32 (L : Int) = L := int_to_u32_natCast L (by omega)
  have hmod : (0 + L) % 2 ^ 32 = L := by omega
  have hlim : ¬ (50 ≤ L) := by omega
  unfold MAX_TARGET_RATIO at hu
  unfold get_compensation
  rcases hu with hself | ⟨h2, h48, hnb⟩
  · have c : ¬ CONFIDENCE_OK ≤ (cal (L : Int)).confidence := by omega
    simp only [c, false_and, and_false, if_false, hu32, hmod, MAX_TARGET_RATIO, hlim]
  · have n1 : ¬ ((L : Int) = 1) := by omega
    have n49 : ¬ (L = 49) := by omega
    rcases hnb with hlo | hhi
    · have c : ¬ CONFIDENCE_OK ≤ (cal ((L : Int) - 1)).confidence := by omega
      simp only [c, n1, n49, false_and, and_false, if_false, hu32, hmod, MAX_TARGET_RATIO,
        hlim, Nat.reduceSub]
    · have c : ¬ CONFIDENCE_OK ≤ (cal ((L : Int) + 1)).confidence := by omega
      simp only [c, n1, n49, false_and, and_false, if_false, hu32, hmod, MAX_TARGET_RATIO,
        hlim, Nat.reduceSub]

/-- On the table `cal_low_levels` level 2 is trusted but its neighbour
level 3 is not, and the lookup for level 2 returns 0. -/
theorem get_compensation_zero_when_untrusted_witness :
    CONFIDENCE_OK ≤ (cal_low_levels 2).confidence ∧ get_compensation cal_low_levels 2 = 0 :=
  ⟨by decide, get_compensation_zero_when_untrusted cal_low_levels 2 (by decide) (by decide)
    (Or.inr ⟨by decide, by decide, Or.inr (by decide)⟩)⟩

end Further

section Tunables

open powerclamp

/-- C11 as stated fails for both tunables: with 10 stored, `duration_set`
on the parsed value 30 returns `-EINVAL` and stores 25, and on 3 it
stores 6; with 5 stored, `window_size_set` on 1 returns `-EINVAL` and
stores 2, and on 50 it stores 10. -/
theorem tunable_out_of_range_is_clamped :
    ((duration_set { globals_init 10 with window_size := 5 } 0 30).1 = -EINVAL ∧
      (duration_set { globals_init 10 with window_size := 5 } 0 30).2.def_idle_duration = 25 ∧
      (duration_set { globals_init 10 with window_size := 5 } 0 3).2.def_idle_duration = 6) ∧
    ((window_size_set { globals_init 10 with window_size := 5 } 0 1).1 = -EINVAL ∧
      (window_size_set { globals_init 10 with window_size := 5 } 0 1).2.window_size = 2 ∧
      (window_size_set { globals_init 10 with window_size := 5 } 0 50).2.window_size = 10) := by
  decide

/-- C11, amended: for a value `v` that `kstrtoul` parsed.  If `v` is inside
the bounds (6 to 25 for the duration, 2 to 10 for the window size) the
setter returns 0 and stores `v`.  If `v` is outside them the setter
returns `-EINVAL` and stores the bound nearest to `v`: the upper bound for
a value above it, the lower bound for a value below it.  In both cases the
setter writes its own variable only: `duration_set` leaves `window_size`
and `window_size_set` leaves `def_idle_duration` as they were. -/
theorem tunable_set_validates_and_clamps (s : globals) (v : Nat) :
    ((6 ≤ v ∧ v ≤ 25 →
        (duration_set s 0 v).1 = 0 ∧ (duration_set s 0 v).2.def_idle_duration = v) ∧
      (25 < v →
        (duration_set s 0 v).1 = -EINVAL ∧ (duration_set s 0 v).2.def_idle_duration = 25) ∧
      (v < 6 →
        (duration_set s 0 v).1 = -EINVAL ∧ (duration_set s 0 v).2.def_idle_duration = 6) ∧
      (duration_set s 0 v).2.window_size = s.window_size) ∧
    ((2 ≤ v ∧ v ≤ 10 →
        (window_size_set s 0 v).1 = 0 ∧ (window_size_set s 0 v).2.window_size = v) ∧
      (10 < v →
        (window_size_set s 0 v).1 = -EINVAL ∧ (window_size_set s 0 v).2.window_size = 10) ∧
      (v < 2 →
        (window_size_set s 0 v).1 = -EINVAL ∧ (window_size_set s 0 v).2.window_size = 2) ∧
      (window_size_set s 0 v).2.def_idle_duration = s.def_idle_duration) := by
  unfold duration_set window_size_set clamp
  simp only [ne_eq, not_true_eq_false, if_false]
  refine ⟨⟨?_, ?_, ?_, trivial⟩, ⟨?_, ?_, ?_, trivial⟩⟩
  · intro h
    have hc : ¬ (25 < v ∨ v < 6) := by omega
    simp only [if_neg hc]
    refine ⟨trivial, ?_⟩
    show min (max v 6) 25 % 2 ^ 32 = v
    omega
  · intro h
    have hc : 25 < v ∨ v < 6 := Or.inl h
    simp only [if_pos hc]
    refine ⟨trivial, ?_⟩
    show min (max v 6) 25 % 2 ^ 32 = 25
    omega
  · intro h
    have hc : 25 < v ∨ v < 6 := Or.inr h
    simp only [if_pos hc]
    refine ⟨trivial, ?_⟩
    show min (max v 6) 25 % 2 ^ 32 = 6
    omega
  · intro h
    have hc : ¬ (10 < v ∨ v < 2) := by omega
    simp only [if_neg hc]
    refine ⟨trivial, ?_⟩
    show min (max v 2) 10 % 2 ^ 32 = v
    omega
  · intro h
    have hc : 10 < v ∨ v < 2 := Or.inl h
    simp only [if_pos hc]
    refine ⟨trivial, ?_⟩
    show min (max v 2) 10 % 2 ^ 32 = 10
    omega
  · intro h
    have hc : 10 < v ∨ v < 2 := Or.inr h
    simp only [if_pos hc]
    refine ⟨trivial, ?_⟩
    show min (max v 2) 10 % 2 ^ 32 = 2
    omega

/-- The value 12 is accepted as duration and rejected as window size, where
10 is stored in its place. -/
theorem tunable_set_validates_and_clamps_witness :
    (duration_set (globals_init 10) 0 12).1 = 0 ∧
    (duration_set (globals_init 10) 0 12).2.def_idle_duration = 12 ∧
    (window_size_set (globals_init 10) 0 12).1 = -EINVAL ∧
    (window_size_set (globals_init 10) 0 12).2.window_size = 10 := by
  have h := tunable_set_validates_and_clamps (globals_init 10) 12
  have a := h.1.1 (by decide)
  have b := h.2.2.1 (by decide)
  exact ⟨a.1, a.2, b.1, b.2⟩

end Tunables

section Hotplug

open cpuidle

/-- C12, evaluated from the zero-initialised instance: after a request for
level 30 that registers device 7, taking the CPU offline releases the
device and stores level 0 but leaves `ii_dev` at device 7; once the CPU is
back online, a request for level 40 calls no `idle_inject_register` and
programs and starts the released device 7. -/
theorem offline_leaves_stale_device :
    (run_operations default_params (cooling_dev_init, [])
      [operation.set_state 30 (some 7), operation.offline]).1.state = 0 ∧
    (run_operations default_params (cooling_dev_init, [])
      [operation.set_state 30 (some 7), operation.offline]).1.ii_dev = some 7 ∧
    (run_operations default_params (cooling_dev_init, [])
      [operation.set_state 30 (some 7), operation.offline]).2.filter ext_call.is_unregister =
        [ext_call.unregister (some 7)] ∧
    (cpuidle_cooling_set_cur_state default_params (some 9)
      (run_operations default_params (cooling_dev_init, [])
        [operation.set_state 30 (some 7), operation.offline,
         operation.online (some 1) 0]).1 40).2.2 =
      [ext_call.set_duration (some 7) 36000 24000, ext_call.start (some 7)] := by
  decide

/-- One request keeps the controller holding a device exactly when its
level is non-zero, whether or not the registration it may need succeeds. -/
theorem set_cur_state_keeps_invariant (p : params) (reg : Option Nat) (dev : cpuidle_cooling)
    (lvl : Nat) (hI : dev.state = 0 ↔ dev.ii_dev = none) :
    (cpuidle_cooling_set_cur_state p reg dev lvl).2.1.state = 0 ↔
      (cpuidle_cooling_set_cur_state p reg dev lvl).2.1.ii_dev = none := by
  cases reg with
  | some h => exact (set_cur_state_step p h dev lvl hI).2.2.1
  | none =>
    by_cases hs : dev.state = 0
    · by_cases hl : lvl = 0
      · subst hl
        rw [set_cur_state_idle_zero p _ dev hs]
        simp [hI.1 hs]
      · rw [set_cur_state_busy p dev lvl hs (hI.1 hs) (by omega)]
        exact hI
    · have hs2 : 0 < dev.state := by omega
      have hi : dev.ii_dev ≠ none := fun c => hs (hI.2 c)
      by_cases hl : lvl = 0
      · subst hl
        rw [set_cur_state_disarm p _ dev hs2]
        simp
      · rw [set_cur_state_update p _ dev lvl hs2 (by omega)]
        simp [hl, hi]

theorem run_operations_invariant (p : params) (st : cpuidle_cooling × List ext_call)
    (ops : List operation) (hI : st.1.state = 0 ↔ st.1.ii_dev = none)
    (hops : ∀ o ∈ ops, o ≠ operation.offline) :
    (run_operations p st ops).1.state = 0 ↔ (run_operations p st ops).1.ii_dev = none := by
  induction ops generalizing st with
  | nil => exact hI
  | cons o os ih =>
    show (run_operations p ((apply_operation p st.1 o).1,
      st.2 ++ (apply_operation p st.1 o).2) os).1.state = 0 ↔ _
    apply ih
    · cases o with
      | set_state level reg => exact set_cur_state_keeps_invariant p reg st.1 level hI
      | offline => exact absurd rfl (hops _ (List.mem_cons_self _ _))
      | online cdev err =>
        cases cdev with
        | none => exact hI
        | some c => exact hI
    · intro x hx; exact hops x (List.mem_cons_of_mem _ hx)

/-- From the zero-initialised instance, after any sequence of
`set_cur_state` requests, with registrations succeeding or failing, and of
CPU online events, the controller holds an injection device exactly when
its stored level is greater than 0. -/
theorem active_iff_level_without_offline (p : params) (ops : List operation)
    (hops : ∀ o ∈ ops, o ≠ operation.offline) :
    (run_operations p (cooling_dev_init, []) ops).1.ii_dev ≠ none ↔
      0 < (run_operations p (cooling_dev_init, []) ops).1.state := by
  have h := run_operations_invariant p (cooling_dev_init, []) ops (by decide) hops
  constructor
  · intro hd
    by_contra hn
    exact hd (h.1 (by omega))
  · intro hs hd
    have := h.2 hd
    omega

/-- A failed registration, a successful one at level 30 and an online
event leave the controller armed at level 30 with device 7. -/
theorem active_iff_level_without_offline_witness :
    (run_operations default_params (cooling_dev_init, [])
      [operation.set_state 20 none, operation.set_state 30 (some 7),
       operation.online (some 1) 0]).1.ii_dev ≠ none ∧
    0 < (run_operations default_params (cooling_dev_init, [])
      [operation.set_state 20 none, operation.set_state 30 (some 7),
       operation.online (some 1) 0]).1.state := by
  have h := active_iff_level_without_offline default_params
    [operation.set_state 20 none, operation.set_state 30 (some 7),
     operation.online (some 1) 0] (by decide)
  exact ⟨h.2 (by decide), by decide⟩

end Hotplug

section MaxStateAndSampling

open powerclamp

/-- C13, evaluated: `powerclamp_get_max_state` stores `MAX_TARGET_RATIO`,
which is 50 and not `MAX_TARGET_RATIO - 1 = 49`; a request for that level
50 stores level 49.  `cpuidle_cooling_get_max_state` stores 100. -/
theorem powerclamp_get_max_state_is_fifty :
    cpuidle.cpuidle_cooling_get_max_state = 100 ∧
    powerclamp_get_max_state = 50 ∧
    MAX_TARGET_RATIO - 1 = 49 ∧
    (powerclamp_set_cur_state clamp_env (globals_init 6000)
      powerclamp_get_max_state).2.set_target_ratio = 49 := by
  decide

/-- C14, evaluated over a start, a sample, a stop and a restart.  After the
first start both snapshots are zero and the first call sets
`current_ratio` to 1 without dividing.  After the restart clamping is on
and the snapshots still hold 1000 and 10000 from the earlier cycle, so the
first call after the restart, reading 3000 and 30000, divides and sets
`current_ratio` to `100 * 2000 / 20000 = 10`. -/
theorem restart_keeps_previous_snapshots :
    (first_start.pdata.clamping = true ∧ first_start.msr_last = 0 ∧ first_start.tsc_last = 0 ∧
      adjust_controls_divides first_start 10000 = false ∧
      first_sampled.current_ratio = 1) ∧
    (restarted.pdata.clamping = true ∧ restarted.msr_last = 1000 ∧
      restarted.tsc_last = 10000 ∧
      adjust_controls_divides restarted 30000 = true ∧
      (powerclamp_adjust_controls restarted restarted.pdata.target_ratio
        restarted.pdata.guard 3000 30000).2.current_ratio = 10) := by
  decide

theorem start_power_clamp_keeps (e : environment) (s : globals) :
    (start_power_clamp e s).2.set_target_ratio = s.set_target_ratio ∧
    (start_power_clamp e s).2.msr_last = s.msr_last ∧
    (start_power_clamp e s).2.tsc_last = s.tsc_last := by
  unfold start_power_clamp powerclamp_idle_injection_register trigger_idle_injection
    get_run_time
  cases e.reg with
  | none => simp [EAGAIN]
  | some h => simp

theorem end_power_clamp_keeps (s : globals) :
    (end_power_clamp s).msr_last = s.msr_last ∧ (end_power_clamp s).tsc_last = s.tsc_last := by
  unfold end_power_clamp remove_idle_injection
  cases s.pdata.clamping <;> simp

theorem set_cur_state_keeps_snapshots (e : environment) (s : globals) (n : Nat) :
    (powerclamp_set_cur_state e s n).2.msr_last = s.msr_last ∧
    (powerclamp_set_cur_state e s n).2.tsc_last = s.tsc_last := by
  unfold powerclamp_set_cur_state
  dsimp only
  split_ifs
  · exact ⟨(start_power_clamp_keeps e _).2.1, (start_power_clamp_keeps e _).2.2⟩
  · exact end_power_clamp_keeps s
  · exact ⟨rfl, rfl⟩

/-- Whatever level is requested, and whether or not the start of clamping
succeeds, the level `powerclamp_set_cur_state` stores is at most
`MAX_TARGET_RATIO - 1`; a request for a level `n` from 1 to
`MAX_TARGET_RATIO - 1` made while idle stores `n`. -/
theorem powerclamp_stored_level_bound (e : environment) (s : globals) (n : Nat) :
    (powerclamp_set_cur_state e s n).2.set_target_ratio ≤ MAX_TARGET_RATIO - 1 ∧
    (s.set_target_ratio = 0 → 1 ≤ n → n ≤ MAX_TARGET_RATIO - 1 →
      (powerclamp_set_cur_state e s n).2.set_target_ratio = n) := by
  have hc : clamp n 0 ( MAX_TARGET_RATIO - 1) ≤ 49 := by
    unfold clamp MAX_TARGET_RATIO
    omega
  unfold MAX_TARGET_RATIO at hc ⊢
  constructor
  · unfold powerclamp_set_cur_state
    dsimp only
    unfold MAX_TARGET_RATIO
    split_ifs
    · rw [(start_power_clamp_keeps e _).1]
      show clamp n 0 (50 - 1) % 2 ^ 32 ≤ 50 - 1
      omega
    · show 0 ≤ 50 - 1
      omega
    · show clamp n 0 (50 - 1) % 2 ^ 32 ≤ 50 - 1
      omega
  · intro h0 h1 h49
    have hcl : clamp n 0 (50 - 1) = n := by
      unfold clamp
      omega
    unfold powerclamp_set_cur_state
    dsimp only
    unfold MAX_TARGET_RATIO
    rw [if_pos ⟨h0, by omega⟩, (start_power_clamp_keeps e _).1]
    show clamp n 0 (50 - 1) % 2 ^ 32 = n
    omega

/-- A request for level 70 while clamping at level 10 stores level 49. -/
theorem powerclamp_stored_level_bound_witness :
    (powerclamp_set_cur_state clamp_env first_start 70).2.set_target_ratio ≤ 49 ∧
    (powerclamp_set_cur_state clamp_env (globals_init 6000) 49).2.set_target_ratio = 49 :=
  ⟨(powerclamp_stored_level_bound clamp_env first_start 70).1,
    (powerclamp_stored_level_bound clamp_env (globals_init 6000) 49).2 (by decide) (by decide)
      (by decide)⟩

/-- After the first start of clamping since module load, whatever the
level and whether or not registration succeeds, both snapshots are zero,
so the first call of `powerclamp_adjust_controls` does not divide and sets
`current_ratio` to 1; and whenever a call divides, its divisor, the
difference of the reference counter, is not zero. -/
theorem first_sample_after_load_is_sentinel (e : environment) (d n : Nat)
    (target_ratio guard msr_now tsc_now : Nat) (s : globals) :
    ((powerclamp_set_cur_state e (globals_init d) n).2.msr_last = 0 ∧
      (powerclamp_set_cur_state e (globals_init d) n).2.tsc_last = 0 ∧
      adjust_controls_divides (powerclamp_set_cur_state e (globals_init d) n).2 tsc_now = false ∧
      (powerclamp_adjust_controls (powerclamp_set_cur_state e (globals_init d) n).2
        target_ratio guard msr_now tsc_now).2.current_ratio = 1) ∧
    (adjust_controls_divides s tsc_now = true → sub_u64 tsc_now s.tsc_last ≠ 0) := by
  have hk := set_cur_state_keeps_snapshots e (globals_init d) n
  have hm : (powerclamp_set_cur_state e (globals_init d) n).2.msr_last = 0 := hk.1
  have ht : (powerclamp_set_cur_state e (globals_init d) n).2.tsc_last = 0 := hk.2
  refine ⟨⟨hm, ht, ?_, ?_⟩, ?_⟩
  · unfold adjust_controls_divides
    simp [hm]
  · unfold powerclamp_adjust_controls
    simp [hm]
  · intro h
    unfold adjust_controls_divides at h
    simp only [decide_eq_true_eq] at h
    exact h.2

end MaxStateAndSampling

section TableReads

open powerclamp

/-- The value returned together with the reads is the value of
`get_compensation`. -/
theorem get_compensation_traced_value (cal : cal_table) (ratio : Int) :
    (get_compensation_traced cal ratio).1 = get_compensation cal ratio := by
  unfold get_compensation_traced get_compensation
  dsimp only
  split_ifs <;> rfl

/-- C15, evaluated on the table `cal_high_levels` at level 49, a level
`powerclamp_set_cur_state` stores: levels 49 and 48 are trusted and level
47 is not, so the test of the upper edge fails at its third read and the
interior test that follows reads `cal_data[50]`, which is
`cal_data[MAX_TARGET_RATIO]`, one entry past the array. -/
theorem get_compensation_reads_past_table :
    (powerclamp_set_cur_state clamp_env (globals_init 6000) 49).2.set_target_ratio = 49 ∧
    (get_compensation_traced cal_high_levels 49).2 = [49, 48, 47, 49, 48, 50] ∧
    (( MAX_TARGET_RATIO : Nat) : Int) ∈ (get_compensation_traced cal_high_levels 49).2 ∧
    (get_compensation_traced cal_high_levels 49).1 = get_compensation cal_high_levels 49 := by
  decide

theorem confidence_chain_reads_bounded (cal : cal_table) (lo hi : Int) (l : List Int)
    (h : ∀ i ∈ l, lo ≤ i ∧ i ≤ hi) : ∀ i ∈ confidence_chain_reads cal l, lo ≤ i ∧ i ≤ hi := by
  induction l with
  | nil => intro i hi; simp [confidence_chain_reads] at hi
  | cons a rest ih =>
    intro i hi
    unfold confidence_chain_reads at hi
    rcases List.mem_cons.mp hi with e | hm
    · subst e; exact h _ (List.mem_cons_self _ _)
    · split_ifs at hm
      · exact ih (fun j hj => h j (List.mem_cons_of_mem _ hj)) i hm
      · simp at hm

/-- The indices read at a level from 1 to `MAX_TARGET_RATIO - 1` lie within
two of the level, and within one of it unless the level is an edge. -/
theorem get_compensation_reads_near (cal : cal_table) (L : Nat) (h1 : 1 ≤ L) (h49 : L ≤ 49)
    (lo hi : Int) (hlo : lo ≤ (L : Int) - 1) (hhi : (L : Int) + 1 ≤ hi)
    (hlow : L = 1 → 3 ≤ hi) (hhigh : L = 49 → lo ≤ 47) :
    ∀ i ∈ (get_compensation_traced cal (L : Int)).2, lo ≤ i ∧ i ≤ hi := by
  have hu : int_to_u32 (L : Int) = L := int_to_u32_natCast L (by omega)
  unfold get_compensation_traced
  simp only [hu, MAX_TARGET_RATIO, Nat.reduceSub]
  split_ifs <;>
    simp only [List.forall_mem_append, List.append_nil, List.nil_append] <;>
    (repeat' constructor) <;>
    first
    | (apply confidence_chain_reads_bounded
       intro j hj
       simp only [List.mem_cons, List.mem_singleton, List.not_mem_nil, or_false] at hj
       omega)
    | (intro j hj
       simp only [List.mem_cons, List.mem_singleton, List.not_mem_nil, or_false] at hj
       omega)

/-- For every table and every level `L` from 1 to `MAX_TARGET_RATIO - 2`,
every index `get_compensation L` reads lies in the table; at level
`MAX_TARGET_RATIO - 1` every index read is at least 47 and at most
`MAX_TARGET_RATIO`, so no read has a negative index. -/
theorem get_compensation_reads_bounds (cal : cal_table) (L : Nat) (h1 : 1 ≤ L)
    (h49 : L ≤ MAX_TARGET_RATIO - 1) :
    (L ≤ MAX_TARGET_RATIO - 2 →
      ∀ i ∈ (get_compensation_traced cal (L : Int)).2, 0 ≤ i ∧ i < ( MAX_TARGET_RATIO : Nat)) ∧
    (L = MAX_TARGET_RATIO - 1 →
      ∀ i ∈ (get_compensation_traced cal (L : Int)).2, 47 ≤ i ∧ i ≤ ( MAX_TARGET_RATIO : Nat)) := by
  unfold MAX_TARGET_RATIO at h49 ⊢
  constructor
  · intro h48 i hi
    have := get_compensation_reads_near cal L h1 (by omega) 0 49 (by omega) (by omega)
      (by omega) (by omega) i hi
    omega
  · intro he i hi
    have := get_compensation_reads_near cal L h1 (by omega) 47 50 (by omega) (by omega)
      (by omega) (by omega) i hi
    omega

/-- On the table `cal_low_levels` the lookup for level 2 reads indices 2, 1
and 3 only. -/
theorem get_compensation_reads_bounds_witness :
    (get_compensation_traced cal_low_levels 2).2 = [2, 1, 3] ∧
    ∀ i ∈ (get_compensation_traced cal_low_levels 2).2, 0 ≤ i ∧ i < (50 : Int) :=
  ⟨by decide, (get_compensation_reads_bounds cal_low_levels 2 (by decide) (by decide)).1
    (by decide)⟩

end TableReads

section SteadyCompensation

open powerclamp

theorem delta_of_lt (st cr : Nat) : delta_of st cr < 2 ^ 31 := by
  unfold delta_of u32_to_int
  split_ifs <;> omega

/-- One call of `adjust_compensation` keeps the steady compensation of an
entry at a level `i ≥ 0` within `1 + i / 10`. -/
theorem adjust_compensation_steady_bound (cal : cal_table) (st cr : Nat) (t i : Int)
    (hi0 : 0 ≤ i)
    (hb : ((cal i).steady_comp : Int) ≤ 1 + i / 10 ∧ (cal i).steady_comp < 2 ^ 31) :
    ((adjust_compensation cal st cr t i).steady_comp : Int) ≤ 1 + i / 10 ∧
      (adjust_compensation cal st cr t i).steady_comp < 2 ^ 31 := by
  unfold adjust_compensation
  by_cases h1 : CONFIDENCE_OK ≤ (cal t).confidence
  · simp only [if_pos h1]; exact hb
  · by_cases h2 : 0 ≤ delta_of st cr ∧ delta_of st cr ≤ 1 + Int.tdiv t 10
    · simp only [if_neg h1, if_pos h2]
      by_cases hit : i = t
      · subst hit
        rw [Function.update_same]
        have hdiv : Int.tdiv i 10 = i / 10 := Int.tdiv_eq_ediv hi0 (by decide)
        have hlt := delta_of_lt st cr
        have hd64 : int_to_u64 (delta_of st cr) = (delta_of st cr).toNat :=
          int_to_u64_of_nonneg _ h2.1 (by omega)
        rw [hdiv] at h2
        rw [hd64]
        generalize delta_of st cr = d at h2 hlt
        obtain ⟨hb1, hb2⟩ := hb
        generalize (cal i).steady_comp = sc at hb1 hb2
        by_cases hsc : sc ≠ 0
        · simp only [if_pos hsc]
          unfold roundup
          omega
        · simp only [if_neg hsc]
          omega
      · rw [Function.update_noteq hit]; exact hb
    · simp only [if_neg h1, if_neg h2]; exact hb

theorem adjust_all_steady_bound (cal : cal_table) (xs : List sample) (i : Int) (hi0 : 0 ≤ i)
    (hb : ((cal i).steady_comp : Int) ≤ 1 + i / 10 ∧ (cal i).steady_comp < 2 ^ 31) :
    ((adjust_all cal xs i).steady_comp : Int) ≤ 1 + i / 10 ∧
      (adjust_all cal xs i).steady_comp < 2 ^ 31 := by
  induction xs generalizing cal with
  | nil => exact hb
  | cons x xs ih =>
    exact ih _ (adjust_compensation_steady_bound cal x.set_target_ratio x.current_ratio
      x.target_ratio i hi0 hb)

/-- C16: from the all-zero table, after any sequence of
`adjust_compensation` calls, the entry of every level `L ≥ 0` has
`steady_comp ≤ 1 + L / 10`, and so at most 5 for a level below
`MAX_TARGET_RATIO`. -/
theorem steady_comp_within_band (xs : List sample) (L : Int) (h0 : 0 ≤ L) :
    ((adjust_all cal_data_init xs L).steady_comp : Int) ≤ 1 + L / 10 ∧
    (L < ( MAX_TARGET_RATIO : Nat) → (adjust_all cal_data_init xs L).steady_comp ≤ 5) := by
  have h := adjust_all_steady_bound cal_data_init xs L h0
    (by
      show ((0 : Nat) : Int) ≤ 1 + L / 10 ∧ (0 : Nat) < 2 ^ 31
      omega)
  refine ⟨h.1, ?_⟩
  intro hL
  unfold MAX_TARGET_RATIO at hL
  have := h.1
  omega

/-- Level 49 after three samples with the largest clean delta 5: the steady
compensation is 5, the bound `1 + 49 / 10`. -/
theorem steady_comp_within_band_witness :
    (adjust_all cal_data_init
      [{ target_ratio := 49, set_target_ratio := 49, current_ratio := 44 },
       { target_ratio := 49, set_target_ratio := 49, current_ratio := 44 },
       { target_ratio := 49, set_target_ratio := 49, current_ratio := 44 }] 49).steady_comp = 5 ∧
    (adjust_all cal_data_init
      [{ target_ratio := 49, set_target_ratio := 49, current_ratio := 44 },
       { target_ratio := 49, set_target_ratio := 49, current_ratio := 44 },
       { target_ratio := 49, set_target_ratio := 49, current_ratio := 44 }] 49).steady_comp ≤ 5 :=
  ⟨by decide, (steady_comp_within_band _ 49 (by decide)).2 (by decide)⟩

end SteadyCompensation

section DriverTables

open powerclamp

theorem adjust_all_untouched (cal : cal_table) (xs : List sample) (i : Int)
    (h : ∀ x ∈ xs, x.target_ratio ≠ i) : adjust_all cal xs i = cal i := by
  induction xs generalizing cal with
  | nil => rfl
  | cons x xs ih =>
    have hx : i ≠ x.target_ratio := fun c => h x (List.mem_cons_self _ _) c.symm
    have e : adjust_compensation cal x.set_target_ratio x.current_ratio x.target_ratio i =
        cal i := by
      rcases adjust_compensation_cases cal x.set_target_ratio x.current_ratio x.target_ratio
        with e | ⟨_, e, _, he⟩
      · rw [e]
      · rw [he, Function.update_noteq hx]
    show adjust_all (adjust_compensation cal x.set_target_ratio x.current_ratio
      x.target_ratio) xs i = cal i
    rw [ih _ (fun y hy => h y (List.mem_cons_of_mem _ hy)), e]

/-- C3: on every table reached from the zero-initialised table by
`adjust_compensation` calls, whatever their levels and measured ratios,
when the three entries of the window of a level `L` from 1 to
`MAX_TARGET_RATIO - 1` have all reached `CONFIDENCE_OK`,
`get_compensation L` is the smaller of the floor of a third of the sum of
their steady compensations and `MAX_TARGET_RATIO - 1 - L`; the window is
`L - 1`, `L`, `L + 1` for an interior level, 1, 2, 3 for level 1 and the
three highest levels for level `MAX_TARGET_RATIO - 1`. -/
theorem get_compensation_on_calibrated_table (xs : List sample) (L : Nat)
    (h1 : 1 ≤ L) (h2 : L < MAX_TARGET_RATIO)
    (ht : claimed_window_trusted (adjust_all cal_data_init xs) L) :
    get_compensation (adjust_all cal_data_init xs) (L : Int) =
      min (claimed_window_sum (adjust_all cal_data_init xs) L / 3)
        ( MAX_TARGET_RATIO - 1 - L) := by
  have hL : L < 50 := h2
  have hz : ∀ i : Int, 0 ≤ i →
      ((cal_data_init i).steady_comp : Int) ≤ 1 + i / 10 ∧
        (cal_data_init i).steady_comp < 2 ^ 31 := by
    intro i hi
    show ((0 : Nat) : Int) ≤ 1 + i / 10 ∧ (0 : Nat) < 2 ^ 31
    omega
  have hb : ∀ i : Int, 0 ≤ i → (adjust_all cal_data_init xs i).steady_comp < 2 ^ 31 :=
    fun i hi => (adjust_all_steady_bound cal_data_init xs i hi (hz i hi)).2
  have hw : 0 ≤ (claimed_window L).1 ∧ 0 ≤ (claimed_window L).2.1 ∧
      0 ≤ (claimed_window L).2.2 := by
    unfold claimed_window MAX_TARGET_RATIO
    split_ifs <;> refine ⟨?_, ?_, ?_⟩ <;> simp <;> omega
  apply get_compensation_trusted_window _ L h1 h2 ht
  unfold claimed_window_sum
  have a := hb _ hw.1
  have b := hb _ hw.2.1
  have c := hb _ hw.2.2
  omega

/-- On the table the driver holds after calibrating levels 9, 10 and 11 to
steady compensations 1, 2 and 2, the window of level 10 is trusted and the
lookup for level 10 returns 1, the floor of 5 / 3. -/
theorem get_compensation_on_calibrated_table_witness :
    claimed_window_trusted (adjust_all cal_data_init samples_9_10_11) 10 ∧
    claimed_window_sum (adjust_all cal_data_init samples_9_10_11) 10 = 5 ∧
    get_compensation (adjust_all cal_data_init samples_9_10_11) 10 = 1 := by
  have h := get_compensation_on_calibrated_table samples_9_10_11 10 (by decide) (by decide)
    (by decide)
  refine ⟨by decide, by decide, ?_⟩
  rw [show ((10 : Nat) : Int) = 10 from rfl] at h
  rw [h]
  decide

theorem start_power_clamp_effect (e : environment) (s : globals) :
    (start_power_clamp e s).2.cal_data = s.cal_data ∧
    (start_power_clamp e s).2.window_size = s.window_size ∧
    (start_power_clamp e s).2.set_target_ratio = s.set_target_ratio ∧
    ((start_power_clamp e s).2.pdata.clamping = true →
      s.pdata.clamping = true ∨
      ((start_power_clamp e s).2.pdata.target_ratio = s.set_target_ratio ∧
        (start_power_clamp e s).2.pdata.window_size_now = s.window_size)) := by
  unfold start_power_clamp powerclamp_idle_injection_register trigger_idle_injection
    get_run_time
  cases e.reg with
  | none =>
    simp [EAGAIN]
    exact fun h => Or.inl h
  | some h => simp

theorem end_power_clamp_effect (s : globals) :
    (end_power_clamp s).cal_data = s.cal_data ∧
    (end_power_clamp s).window_size = s.window_size ∧
    (end_power_clamp s).pdata.clamping = false := by
  unfold end_power_clamp remove_idle_injection
  cases h : s.pdata.clamping <;> simp [h]

theorem set_cur_state_invariant (e : environment) (s : globals) (n : Nat)
    (h : driver_invariant s) : driver_invariant (powerclamp_set_cur_state e s n).2 := by
  obtain ⟨hcal, hw, hc⟩ := h
  have hcl : clamp n 0 ( MAX_TARGET_RATIO - 1) ≤ 49 := by
    unfold clamp MAX_TARGET_RATIO
    omega
  unfold driver_invariant powerclamp_set_cur_state
  dsimp only
  split_ifs with c1 c2
  · have ef := start_power_clamp_effect e
      { s with set_target_ratio := clamp n 0 ( MAX_TARGET_RATIO - 1) % 2 ^ 32 }
    obtain ⟨e1, e2, e3, e4⟩ := ef
    rw [e1, e2, e3]
    refine ⟨hcal, hw, ?_⟩
    intro hon
    have hoff : ¬ s.pdata.clamping = true := by
      intro hcon
      have := (hc hcon).1.1
      omega
    rcases e4 hon with hold | ⟨t1, t2⟩
    · exact absurd hold hoff
    · rw [t1, t2]
      unfold MAX_TARGET_RATIO at c1 hcl ⊢
      dsimp only
      refine ⟨⟨?_, ?_⟩, ⟨?_, ?_⟩, hw⟩ <;> omega
  · obtain ⟨e1, e2, e3⟩ := end_power_clamp_effect s
    refine ⟨by rw [e1]; exact hcal, by rw [e2]; exact hw, ?_⟩
    intro hon
    rw [e3] at hon
    exact absurd hon (by decide)
  · refine ⟨hcal, hw, ?_⟩
    intro hon
    have hs := hc hon
    have hn : 0 < clamp n 0 ( MAX_TARGET_RATIO - 1) := by
      by_contra hz
      exact c2 ⟨by omega, by omega⟩
    unfold MAX_TARGET_RATIO at hcl hn ⊢
    dsimp only
    refine ⟨⟨?_, ?_⟩, hs.2.1, hs.2.2⟩ <;> omega

theorem adjust_controls_invariant (s : globals) (msr_now tsc_now : Nat)
    (h : driver_invariant s) (hon : s.pdata.clamping = true) :
    driver_invariant
      (powerclamp_adjust_controls s s.pdata.target_ratio s.pdata.guard msr_now tsc_now).2 ∧
    (powerclamp_adjust_controls s s.pdata.target_ratio s.pdata.guard msr_now tsc_now).2.pdata =
      s.pdata ∧
    (powerclamp_adjust_controls s s.pdata.target_ratio s.pdata.guard
      msr_now tsc_now).2.set_target_ratio = s.set_target_ratio := by
  obtain ⟨⟨xs, hxs, hcal⟩, hw, hc⟩ := h
  have ht := (hc hon).2.1
  unfold MAX_TARGET_RATIO at ht
  have hi : u32_to_int s.pdata.target_ratio = (s.pdata.target_ratio : Int) :=
    u32_to_int_of_lt _ (by omega)
  refine ⟨⟨?_, hw, hc⟩, rfl, rfl⟩
  unfold powerclamp_adjust_controls
  dsimp only
  generalize (if s.msr_last = 0 ∨ s.tsc_last = 0 then 1
    else if sub_u64 tsc_now s.tsc_last ≠ 0 then
      do_div (100 * sub_u64 msr_now s.msr_last % 2 ^ 64) (sub_u64 tsc_now s.tsc_last) % 2 ^ 32
    else s.current_ratio) = cr
  refine ⟨xs ++ [sample.mk (s.pdata.target_ratio : Int) s.set_target_ratio cr], ?_, ?_⟩
  · intro x hx
    rcases List.mem_append.mp hx with hx | hx
    · exact hxs x hx
    · rw [List.mem_singleton.mp hx]
      unfold MAX_TARGET_RATIO
      dsimp only
      omega
  · rw [adjust_all_append, ← hcal, hi]
    rfl

theorem driver_step_invariant (s : globals) (ev : driver_event) (h : driver_invariant s) :
    driver_invariant (driver_step s ev) := by
  cases ev with
  | set_cur_state e level => exact set_cur_state_invariant e s level h
  | period_begin cpu idle_duration run_duration msr_now tsc_now =>
    show driver_invariant (if s.pdata.clamping then
      (idle_inject_begin s cpu idle_duration run_duration msr_now tsc_now).2 else s)
    by_cases hon : s.pdata.clamping = true
    · rw [if_pos hon]
      obtain ⟨hadj, hp, hs⟩ := adjust_controls_invariant s msr_now tsc_now h hon
      have hinv : driver_invariant
          { (powerclamp_adjust_controls s s.pdata.target_ratio s.pdata.guard
              msr_now tsc_now).2 with
            should_skip := (powerclamp_adjust_controls s s.pdata.target_ratio s.pdata.guard
              msr_now tsc_now).1 } := hadj
      unfold idle_inject_begin
      dsimp only
      by_cases hcond : cpu = s.control_cpu ∧ s.pdata.count % s.pdata.window_size_now = 0
      · simp only [if_pos hcond]
        split_ifs
        · exact hinv
        · exact hinv
      · simp only [if_neg hcond]
        split_ifs
        · exact h
        · exact h
    · rw [if_neg hon]
      exact h
  | period_end idle_duration =>
    show driver_invariant (if s.pdata.clamping then idle_inject_end s idle_duration else s)
    by_cases hon : s.pdata.clamping = true
    · rw [if_pos hon]
      obtain ⟨hcal, hw, hc⟩ := h
      have hs := hc hon
      exact ⟨hcal, hw, fun _ => ⟨hs.1, hs.1, hw⟩⟩
    · rw [if_neg hon]
      exact h
  | set_duration r v =>
    show driver_invariant (duration_set s r v).2
    unfold duration_set
    split_ifs
    · exact h
    · exact h
    · exact h
  | set_window_size r v =>
    show driver_invariant (window_size_set s r v).2
    obtain ⟨hcal, hw, hc⟩ := h
    unfold window_size_set
    by_cases hr : r ≠ 0
    · rw [if_pos hr]
      exact ⟨hcal, hw, hc⟩
    · rw [if_neg hr]
      refine ⟨hcal, ?_, hc⟩
      show 2 ≤ clamp v 2 10 % 2 ^ 32
      unfold clamp
      omega
  | cpu_online cpu =>
    show driver_invariant (powerclamp_cpu_online s cpu)
    unfold powerclamp_cpu_online
    split_ifs
    · exact h
    · exact h
    · exact h
  | cpu_predown m cpu => exact h

theorem run_driver_invariant (s : globals) (evs : List driver_event)
    (h : driver_invariant s) : driver_invariant (run_driver s evs) := by
  induction evs generalizing s with
  | nil => exact h
  | cons ev evs ih => exact ih _ (driver_step_invariant s ev h)

/-- On every run of the package-wide driver from module load, through
`set_cur_state` requests, begin and end callbacks while clamping, updates
of the two tunables and CPU hotplug callbacks: the calibration table is one
reached from the zero-initialised table by `adjust_compensation` calls at
levels from 1 to `MAX_TARGET_RATIO - 1`, so that entry 0 is never
calibrated; and while clamping is on, the level latched by `get_run_time`
lies in that range and the latched window size is at least 2, so the
remainder taken in `idle_inject_begin` has a non-zero divisor. -/
theorem driver_table_is_calibrated_above_zero (d : Nat) (evs : List driver_event) :
    (∃ xs : List sample, driver_samples xs ∧
      (run_driver (globals_init d) evs).cal_data = adjust_all cal_data_init xs) ∧
    (run_driver (globals_init d) evs).cal_data 0 = cal_data_init 0 ∧
    ((run_driver (globals_init d) evs).pdata.clamping = true →
      1 ≤ (run_driver (globals_init d) evs).pdata.target_ratio ∧
      (run_driver (globals_init d) evs).pdata.target_ratio < MAX_TARGET_RATIO ∧
      2 ≤ (run_driver (globals_init d) evs).pdata.window_size_now) := by
  have hinit : driver_invariant (globals_init d) :=
    ⟨⟨[], by intro x hx; simp at hx, rfl⟩, le_refl 2,
      fun h => absurd (show false = true from h) (by decide)⟩
  obtain ⟨⟨xs, hxs, hcal⟩, _, hc⟩ := run_driver_invariant (globals_init d) evs hinit
  refine ⟨⟨xs, hxs, hcal⟩, ?_, fun hon => ⟨(hc hon).2.1.1, (hc hon).2.1.2, (hc hon).2.2⟩⟩
  rw [hcal]
  exact adjust_all_untouched _ xs 0 (fun x hx => by have := (hxs x hx).1; omega)

/-- A start at level 10 and two sampling begin callbacks on the control
CPU, the second measuring a ratio of 8: the table then holds one clean
sample at level 10, with steady compensation 2, and nothing at level 0. -/
theorem driver_table_is_calibrated_above_zero_witness :
    (run_driver (globals_init 6000)
      [driver_event.set_cur_state clamp_env 10, driver_event.period_end 6000,
       driver_event.period_begin 0 6000 54000 1000 10000,
       driver_event.period_end 6000, driver_event.period_end 6000,
       driver_event.period_begin 0 6000 54000 1800 20000]).cal_data 10 =
      { confidence := 1, steady_comp := 2, dynamic_comp := 0 } ∧
    (run_driver (globals_init 6000)
      [driver_event.set_cur_state clamp_env 10, driver_event.period_end 6000,
       driver_event.period_begin 0 6000 54000 1000 10000,
       driver_event.period_end 6000, driver_event.period_end 6000,
       driver_event.period_begin 0 6000 54000 1800 20000]).cal_data 0 = cal_data_init 0 :=
  ⟨by decide, (driver_table_is_calibrated_above_zero 6000 _).2.1⟩

end DriverTables
